import Mathlib

/-!
# SmartTrade core: shallow embedding and verification

This file embeds the core of the SmartTrade repository — the SMC pattern
detectors (`smarttrade/smc_indicators.py`), the Fibonacci analyzer
(`smarttrade/fibonacci.py`), the four strategy backtest engines
(`smarttrade/backtesting.py`) and the multi-timeframe ranking aggregator
(`smarttrade/multi_timeframe_analysis.py`) — as executable Lean definitions,
and proves or refutes the specification claims about them.

Modelling conventions:
* Python floats are modelled as `Rat`; the one value outside `Rat` that the
  core produces, `float('inf')` for the profit factor of a backtest with no
  losing trades, is modelled by the two-constructor type `PFloat`.
* Python division raises `ZeroDivisionError` on a zero divisor, so every
  division whose divisor is not syntactically guarded in the source is
  embedded as `pydiv`, returning `Except String Rat`; likewise an
  out-of-range subscript is `pyIndex`.  All fallible code therefore lives in
  `Except String _`, whose error strings name the Python exception raised.
* Candle dictionaries are modelled directly as the typed `Candle` record
  (`parse_candles` is the identity on well-typed input; string/float
  normalisation of raw exchange data is outside the core).
* `Trade.metadata` (an echo of entry parameters, read by no code in the
  analyzed core) and the `parameters`/`summary` echo dictionaries of
  `BacktestResult`/`MultiTimeframeReport` are not modelled; no claim and no
  downstream computation consumes them.  `analyze` additionally returns the
  `trend` and `structure_breaks` entries, which no backtest strategy and no
  claim reads; they are omitted from the `SMCAnalysis` record.
-/

namespace SmartTrade

/-- Python `a / b`: raises `ZeroDivisionError` when `b == 0`. -/
def pydiv (a b : Rat) : Except String Rat :=
  if b = 0 then .error "ZeroDivisionError" else .ok (a / b)

/-- Python `l[i]` for `0 ≤ i`: raises `IndexError` out of range. -/
def pyIndex {α : Type} (l : List α) (i : Nat) : Except String α :=
  match l.get? i with
  | some a => .ok a
  | none => .error "IndexError"

/-- Insert `a` in front of the first element `b` with `le a b`; applied to a
sorted list this keeps it sorted and puts `a` after every earlier equal
element. -/
def stableInsert {α : Type} (le : α → α → Bool) (a : α) : List α → List α
  | [] => [a]
  | b :: t => if le a b then a :: b :: t else b :: stableInsert le a t

/-- Python's `list.sort` with a key: a *stable* sort.  Any stable sorting
algorithm over the same total preorder returns the same list, so the
structural insertion sort below is observationally Python's Timsort; `le`
is the (total) "key does not come later" test, e.g.
`fun a b => key b ≤ key a` for `reverse=True`. -/
def pySort {α : Type} (le : α → α → Bool) : List α → List α
  | [] => []
  | a :: t => stableInsert le a (pySort le t)

instance {α : Type} [DecidableEq α] : DecidableEq (Except String α) := fun a b =>
  match a, b with
  | .ok x, .ok y => if h : x = y then .isTrue (by rw [h]) else .isFalse (by simp [h])
  | .error x, .error y => if h : x = y then .isTrue (by rw [h]) else .isFalse (by simp [h])
  | .ok _, .error _ => .isFalse (by simp)
  | .error _, .ok _ => .isFalse (by simp)

/-- One OHLCV candle (`smc_indicators.Candle`; `time` is an ms epoch).
The Lean keyword `open` forces the field name `open_`. -/
structure Candle where
  time : Int
  open_ : Rat
  high : Rat
  low : Rat
  close : Rat
  volume : Rat
deriving DecidableEq

instance : Inhabited Candle := ⟨⟨0, 0, 0, 0, 0, 0⟩⟩

/-- Total indexing into a candle list; every use below is at an index the
source guarantees to be in range, where it agrees with Python indexing. -/
def candAt (cs : List Candle) (i : Nat) : Candle := (cs.get? i).getD default

/-- `Candle.is_bullish`: `close > open`. -/
def Candle.is_bullish (c : Candle) : Bool := c.close > c.open_

/-- `Candle.is_bearish`: `close < open`. -/
def Candle.is_bearish (c : Candle) : Bool := c.close < c.open_

/-- `smc_indicators.SwingPoint`. -/
structure SwingPoint where
  time : Int
  price : Rat
  index : Nat
  is_high : Bool
deriving DecidableEq

/-- The inner-loop test of `SMCAnalyzer.find_swing_highs_lows` for a swing
high: `high[i]` strictly greater than the `n` highs on each side. -/
def isSwingHighAt (cs : List Candle) (n i : Nat) : Bool :=
  (List.range' 1 n).all fun j =>
    decide ((candAt cs (i - j)).high < (candAt cs i).high) &&
    decide ((candAt cs (i + j)).high < (candAt cs i).high)

/-- The inner-loop test for a swing low: strictly smaller than both sides. -/
def isSwingLowAt (cs : List Candle) (n i : Nat) : Bool :=
  (List.range' 1 n).all fun j =>
    decide ((candAt cs i).low < (candAt cs (i - j)).low) &&
    decide ((candAt cs i).low < (candAt cs (i + j)).low)

/-- Candidate indices of `find_swing_highs_lows`: Python `range(n, len-n)`. -/
def swingIndices (cs : List Candle) (n : Nat) : List Nat :=
  List.range' n (cs.length - 2 * n)

/-- `SMCAnalyzer.find_swing_highs_lows`, swing-high list. -/
def find_swing_highs (cs : List Candle) (n : Nat) : List SwingPoint :=
  ((swingIndices cs n).filter (fun i => isSwingHighAt cs n i)).map fun i =>
    ⟨(candAt cs i).time, (candAt cs i).high, i, true⟩

/-- `SMCAnalyzer.find_swing_highs_lows`, swing-low list. -/
def find_swing_lows (cs : List Candle) (n : Nat) : List SwingPoint :=
  ((swingIndices cs n).filter (fun i => isSwingLowAt cs n i)).map fun i =>
    ⟨(candAt cs i).time, (candAt cs i).low, i, false⟩

/-- `OrderBlockType` (`bullish` = demand, `bearish` = supply). -/
inductive OrderBlockType where
  | bullish
  | bearish
deriving DecidableEq

/-- `OrderBlockType.value` as serialized by `to_dict`. -/
def OrderBlockType.value : OrderBlockType → String
  | .bullish => "bullish"
  | .bearish => "bearish"

/-- `smc_indicators.OrderBlock` as produced by the detector (enum-typed). -/
structure OrderBlock where
  type : OrderBlockType
  time : Int
  top : Rat
  bottom : Rat
  candle_index : Nat
  strength : Rat
  tested : Bool := false
  broken : Bool := false
deriving DecidableEq

/-- Per-candle true range at index `j`
(`max(high-low, |high-prevClose|, |low-prevClose|)`, the latter two `0` at
`j = 0`), as computed inside `find_order_blocks`. -/
def trueRange (cs : List Candle) (j : Nat) : Rat :=
  max ((candAt cs j).high - (candAt cs j).low)
    (max (if j > 0 then |(candAt cs j).high - (candAt cs (j - 1)).close| else 0)
      (if j > 0 then |(candAt cs j).low - (candAt cs (j - 1)).close| else 0))

/-- Rolling ATR of `find_order_blocks`: mean true range of the 14 candles
before index `i` (defined for `i ≥ 14`); `atr_values[i - atr_period]`. -/
def rollingAtr (cs : List Candle) (i : Nat) : Rat :=
  (((List.range' (i - 14) 14).map (trueRange cs)).sum) / 14

/-- Candidate order block at index `i` inside `find_order_blocks`'s loop
(`atr_period + 3 ≤ i < len - 3`): a bearish candle followed by ≥ 2 bullish
candles among the next 3 with ATR-normalised strength ≥ `min_strength`
is a bullish block, and symmetrically.  `min(i+4, len)` never truncates
because the loop stops at `len - 3`. -/
def orderBlockAt (cs : List Candle) (min_strength : Rat) (i : Nat) : Option OrderBlock :=
  let current := candAt cs i
  let atr := rollingAtr cs i
  let nexts := (List.range' (i + 1) (min (i + 4) cs.length - (i + 1))).map (candAt cs)
  if current.is_bearish then
    let next_3_bullish := (nexts.filter (·.is_bullish)).length
    let next_high := (nexts.map (·.high)).foldr max ((candAt cs (i + 1)).high)
    let strength := if atr > 0 then (next_high - current.close) / atr else 0
    if next_3_bullish ≥ 2 ∧ strength ≥ min_strength then
      some ⟨.bullish, current.time, max current.open_ current.close, current.low, i,
        min strength 1, false, false⟩
    else none
  else if current.is_bullish then
    let next_3_bearish := (nexts.filter (·.is_bearish)).length
    let next_low := (nexts.map (·.low)).foldr min ((candAt cs (i + 1)).low)
    let strength := if atr > 0 then (current.close - next_low) / atr else 0
    if next_3_bearish ≥ 2 ∧ strength ≥ min_strength then
      some ⟨.bearish, current.time, current.high, min current.open_ current.close, i,
        min strength 1, false, false⟩
    else none
  else none

/-- The descending `(strength, time)` comparison of
`order_blocks.sort(key=lambda ob: (ob.strength, ob.time), reverse=True)`;
a stable merge sort with this relation reproduces Python's stable sort. -/
def obSortLe (a b : OrderBlock) : Bool :=
  decide (b.strength < a.strength) ||
    (decide (a.strength = b.strength) && decide (b.time ≤ a.time))

/-- `SMCAnalyzer.find_order_blocks`: needs ≥ 10 candles, scans
`range(atr_period + 3, len - 3)`, sorts by `(strength, time)` descending
and keeps the 20 strongest. -/
def find_order_blocks (cs : List Candle) (min_strength : Rat) : List OrderBlock :=
  if cs.length < 10 then []
  else
    let raw := (List.range' (14 + 3) (cs.length - 3 - (14 + 3))).filterMap
      (orderBlockAt cs min_strength)
    (pySort obSortLe raw).take 20

/-- `smc_indicators.FairValueGap` (`size = top - bottom`). -/
structure FairValueGap where
  type : OrderBlockType
  time_start : Int
  time_end : Int
  top : Rat
  bottom : Rat
  index_start : Nat
  index_end : Nat
  filled : Bool := false
  fill_percentage : Rat := 0
deriving DecidableEq

def FairValueGap.size (f : FairValueGap) : Rat := f.top - f.bottom

/-- The static ATR of `find_fair_value_gaps`: mean true range over candles
`1 .. min(14, len-1)`, one value for the whole series (the guard ensures
`len ≥ 15`, so the divisor is 14). -/
def staticAtr (cs : List Candle) : Rat :=
  (((List.range' 1 (min 14 (cs.length - 1))).map fun i =>
    max ((candAt cs i).high - (candAt cs i).low)
      (max |(candAt cs i).high - (candAt cs (i - 1)).close|
        |(candAt cs i).low - (candAt cs (i - 1)).close|)).sum)
    / (min 14 (cs.length - 1) : Nat)

/-- Candidate FVG ending at index `i ≥ 2`: bullish when `low[i] > high[i-2]`,
bearish when `high[i] < low[i-2]`, kept when the gap is at least
`ATR · min_gap_atr_ratio`. -/
def fvgAt (cs : List Candle) (atr min_gap : Rat) (i : Nat) : Option FairValueGap :=
  if (candAt cs i).low > (candAt cs (i - 2)).high then
    if (candAt cs i).low - (candAt cs (i - 2)).high ≥ atr * min_gap then
      some ⟨.bullish, (candAt cs (i - 2)).time, (candAt cs i).time,
        (candAt cs i).low, (candAt cs (i - 2)).high, i - 2, i, false, 0⟩
    else none
  else if (candAt cs i).high < (candAt cs (i - 2)).low then
    if (candAt cs (i - 2)).low - (candAt cs i).high ≥ atr * min_gap then
      some ⟨.bearish, (candAt cs (i - 2)).time, (candAt cs i).time,
        (candAt cs (i - 2)).low, (candAt cs i).high, i - 2, i, false, 0⟩
    else none
  else none

/-- `SMCAnalyzer.find_fair_value_gaps`: needs ≥ 15 candles; all qualifying
gaps in index order, no truncation. -/
def find_fair_value_gaps (cs : List Candle) (min_gap : Rat) : List FairValueGap :=
  if cs.length < 15 then []
  else (List.range' 2 (cs.length - 2)).filterMap (fvgAt cs (staticAtr cs) min_gap)

/-- `smc_indicators.CISD` — note the field names: `candle_index` and
`liquidity_swept_level` (the backtest strategy will look for
`break_candle_index` / `sweep_price`, which do not exist). -/
structure CISDRec where
  type : OrderBlockType
  time : Int
  top : Rat
  bottom : Rat
  candle_index : Nat
  liquidity_swept_level : Rat
deriving DecidableEq

/-- Python's stable ascending sort by `x.index` used on merged swing lists. -/
def swingSortLe (a b : SwingPoint) : Bool := decide (a.index ≤ b.index)

/-- The scan of `find_cisd` for one swing: the first candle among the next
19 that trades beyond the swing price and closes back across it (or whose
next candle does, in the matching direction) forms a zone; first match
terminates the scan for this swing. -/
def cisdScanSwing (cs : List Candle) (s : SwingPoint) : List Nat → Option CISDRec
  | [] => none
  | i :: rest =>
    let c := candAt cs i
    if s.is_high = false then
      if c.low < s.price ∧
          (c.close > s.price ∨
            (i + 1 < cs.length ∧ (candAt cs (i + 1)).close > s.price ∧
              (candAt cs (i + 1)).is_bullish)) then
        some ⟨.bullish, c.time, c.high, c.low, i, s.price⟩
      else cisdScanSwing cs s rest
    else
      if c.high > s.price ∧
          (c.close < s.price ∨
            (i + 1 < cs.length ∧ (candAt cs (i + 1)).close < s.price ∧
              (candAt cs (i + 1)).is_bearish)) then
        some ⟨.bearish, c.time, c.high, c.low, i, s.price⟩
      else cisdScanSwing cs s rest

/-- `SMCAnalyzer.find_cisd`: needs ≥ 20 candles; swings merged and sorted by
index; per swing the candles `swing.index+1 .. min(swing.index+20, len)-1`
are scanned (Python `range(swing.index + 1, min(swing.index + 20, len))`). -/
def find_cisd (cs : List Candle) (highs lows : List SwingPoint) : List CISDRec :=
  if cs.length < 20 then []
  else
    (pySort swingSortLe (highs ++ lows)).filterMap fun s =>
      cisdScanSwing cs s
        (List.range' (s.index + 1) (min (s.index + 20) cs.length - (s.index + 1)))

/-- The successful payload of `SMCAnalyzer.analyze` (the dictionary entries
consumed by the backtest engines; `trend` and `structure_breaks` are
computed by the source but read by none of the verified components). -/
structure SMCAnalysis where
  swing_highs : List SwingPoint
  swing_lows : List SwingPoint
  order_blocks : List OrderBlock
  fair_value_gaps : List FairValueGap
  cisd_zones : List CISDRec
  total_candles_analyzed : Nat
deriving DecidableEq

/-- Result of `SMCAnalyzer.analyze`: either the insufficient-data error
object `{"error": ..., "min_candles_required": 20, "provided": len}` or the
full analysis. -/
inductive SMCResult where
  | insufficientData (min_candles_required provided : Nat)
  | ok (a : SMCAnalysis)
deriving DecidableEq

/-- `SMCAnalyzer.analyze` with the default `swing_length = 5`: returns the
error object below 20 candles, otherwise runs every detector (defaults
`min_strength = 0.3`, `min_gap_atr_ratio = 0.1`). -/
def analyze (cs : List Candle) : SMCResult :=
  if cs.length < 20 then .insufficientData 20 cs.length
  else
    let highs := find_swing_highs cs 5
    let lows := find_swing_lows cs 5
    .ok ⟨highs, lows, find_order_blocks cs 0.3, find_fair_value_gaps cs 0.1,
      find_cisd cs highs lows, cs.length⟩

/-- `fibonacci.FibonacciLevel`. -/
structure FibonacciLevel where
  ratio : Rat
  price : Rat
  label : String
deriving DecidableEq

/-- `FibonacciAnalyzer._format_level_label`.  The final `f"{ratio:.3f}"`
fallback is unreachable for the default level sets used by the core; it is
rendered as a fixed marker string. -/
def format_level_label (ratio : Rat) (is_extension : Bool) : String :=
  if ratio = 0 then (if is_extension then "0.0" else "0%")
  else if ratio = 0.236 then "23.6%"
  else if ratio = 0.382 then "38.2%"
  else if ratio = 0.5 then "50%"
  else if ratio = 0.618 then (if is_extension then "0.618" else "61.8%")
  else if ratio = 0.786 then "78.6%"
  else if ratio = 1 then (if is_extension then "1.0" else "100%")
  else if ratio = 1.272 then "1.272"
  else if ratio = 1.414 then "1.414"
  else if ratio = 1.618 then "1.618"
  else if ratio = 2 then "2.0"
  else if ratio = 2.618 then "2.618"
  else if ratio = 3.618 then "3.618"
  else if ratio = 4.236 then "4.236"
  else "custom"

/-- `FIBO_RETRACEMENT_LEVELS`. -/
def fiboRetracementLevels : List Rat := [0, 0.236, 0.382, 0.5, 0.618, 0.786, 1]

/-- `fibonacci.FibonacciRetracement`. -/
structure FibonacciRetracement where
  swing_high : Rat
  swing_low : Rat
  direction : String
  levels : List FibonacciLevel
deriving DecidableEq

/-- `FibonacciAnalyzer.calculate_retracement` with the default level set:
uptrend prices descend from the high, downtrend prices ascend from the low. -/
def calculate_retracement (swing_high swing_low : Rat) (direction : String) :
    FibonacciRetracement :=
  let range_size := |swing_high - swing_low|
  let levels := fiboRetracementLevels.map fun ratio =>
    if direction = "uptrend" then
      ⟨ratio, swing_high - range_size * ratio, format_level_label ratio false⟩
    else
      ⟨ratio, swing_low + range_size * ratio, format_level_label ratio false⟩
  ⟨swing_high, swing_low, direction, levels⟩

/-- Python `max(list)` / `min(list)`; the source only applies them to
nonempty lists (`0` stands in for the unreached empty case). -/
def pyMax (l : List Rat) : Rat :=
  match l with
  | [] => 0
  | h :: t => t.foldl max h

def pyMin (l : List Rat) : Rat :=
  match l with
  | [] => 0
  | h :: t => t.foldl min h

/-- `FibonacciAnalyzer.calculate_auto_retracements`: below `lookback_period`
candles returns `[]`; otherwise one retracement over the last
`lookback_period` candles, with the direction read off the last 10 closes
(`last > first` ⇒ uptrend).  Faithful for `lookback_period ≥ 1`, the only
way the core calls it (the backtest uses 100). -/
def calculate_auto_retracements (klines : List Candle) (lookback_period : Nat) :
    List FibonacciRetracement :=
  if klines.length < lookback_period then []
  else
    let recent := klines.drop (klines.length - lookback_period)
    let swing_high := pyMax (recent.map (·.high))
    let swing_low := pyMin (recent.map (·.low))
    let recent_closes := (recent.drop (recent.length - 10)).map (·.close)
    let is_uptrend : Bool := decide (pyLast recent_closes > pyHead recent_closes)
    [calculate_retracement swing_high swing_low
      (if is_uptrend then "uptrend" else "downtrend")]
where
  /-- Python `list[-1]` / `list[0]` on the nonempty last-10-closes window. -/
  pyLast (l : List Rat) : Rat := l.getLastD 0
  pyHead (l : List Rat) : Rat := l.headD 0

/-- `FibonacciAnalyzer.find_price_near_fibo_level`: nearest level within
`tolerance_percent` of the price (percent measured against the level's
price — an unguarded division), ties on distance keeping the earlier hit.
The accumulator mirrors `(closest_level, min_distance)` where `none` is the
initial `float('inf')`. -/
def fpnlLoop (current tol : Rat) :
    List FibonacciLevel → Option (FibonacciLevel × Rat) →
    Except String (Option FibonacciLevel)
  | [], acc => .ok (acc.map Prod.fst)
  | l :: rest, acc =>
    let distance := |current - l.price|
    match pydiv distance l.price with
    | .error e => .error e
    | .ok dq =>
      let distance_percent := dq * 100
      if decide (distance_percent ≤ tol) &&
          (match acc with | none => true | some (_, md) => decide (distance < md)) then
        fpnlLoop current tol rest (some (l, distance))
      else
        fpnlLoop current tol rest acc

def find_price_near_fibo_level (current : Rat) (levels : List FibonacciLevel)
    (tol : Rat) : Except String (Option FibonacciLevel) :=
  fpnlLoop current tol levels none

/-- `backtesting.SignalType` (the unused `NONE` member is never constructed
by any strategy and is omitted). -/
inductive SignalType where
  | buy
  | sell
deriving DecidableEq

/-- `backtesting.Trade`.  All four strategies always set `stop_loss` and
`take_profit` at entry, so those are plain `Rat`s; the exit fields are
`none` until `_close_trade` fills them. -/
structure Trade where
  entry_time : Int
  entry_price : Rat
  entry_index : Nat
  signal_type : SignalType
  stop_loss : Rat
  take_profit : Rat
  exit_time : Option Int := none
  exit_price : Option Rat := none
  exit_index : Option Nat := none
  profit_loss : Option Rat := none
  profit_loss_percent : Option Rat := none
  reason : String
deriving DecidableEq

/-- `Trade.is_closed`. -/
def Trade.is_closed (t : Trade) : Bool := t.exit_time.isSome

/-- `Trade.is_winner`: Python `is_closed and profit_loss and profit_loss > 0`
(`None` and `0.0` are both falsy). -/
def Trade.is_winner (t : Trade) : Bool :=
  t.is_closed && (match t.profit_loss with | some p => decide (p > 0) | none => false)

/-- `BacktestEngine._close_trade`: fills the exit fields, computes P&L and
its percentage (an unguarded division by `entry_price`). -/
def close_trade (t : Trade) (exit_time : Int) (exit_price : Rat) (exit_index : Nat)
    (reason : String) : Except String Trade :=
  let pl := if t.signal_type = .buy then exit_price - t.entry_price
    else t.entry_price - exit_price
  match pydiv pl t.entry_price with
  | .error e => .error e
  | .ok plq => .ok { t with
    exit_time := some exit_time, exit_price := some exit_price,
    exit_index := some exit_index, reason := reason,
    profit_loss := some pl, profit_loss_percent := some (plq * 100) }

/-- The per-bar exit check, textually identical in all four strategies:
stop-loss first (BUY: `low ≤ stop`; SELL: `high ≥ stop`), then take-profit
(BUY: `high ≥ tp`; SELL: `low ≤ tp`), exit exactly at the level. -/
def checkExit (t : Trade) (i : Nat) (c : Candle) : Except String (Option Trade) :=
  if t.signal_type = .buy ∧ c.low ≤ t.stop_loss then
    match close_trade t c.time t.stop_loss i "Stop Loss" with
    | .error e => .error e
    | .ok tc => .ok (some tc)
  else if t.signal_type = .sell ∧ c.high ≥ t.stop_loss then
    match close_trade t c.time t.stop_loss i "Stop Loss" with
    | .error e => .error e
    | .ok tc => .ok (some tc)
  else if t.signal_type = .buy ∧ c.high ≥ t.take_profit then
    match close_trade t c.time t.take_profit i "Take Profit" with
    | .error e => .error e
    | .ok tc => .ok (some tc)
  else if t.signal_type = .sell ∧ c.low ≤ t.take_profit then
    match close_trade t c.time t.take_profit i "Take Profit" with
    | .error e => .error e
    | .ok tc => .ok (some tc)
  else .ok none

/-- The running state of a strategy loop.  Python keeps one `trades` list
whose open tail element is mutated in place; since at most one trade is
open and trades close in entry order, this is equivalently a closed list
plus an optional open trade appended at the end. -/
structure EngState (P : Type) where
  closed : List Trade
  open_ : Option Trade
  pats : P

/-- One bar of the shared strategy loop: an open trade is checked for exit
and the bar ends (`continue` — no entry on a closing bar); otherwise the
strategy-specific entry scan may open at most one trade and update its
pattern state. -/
def engStep {P : Type}
    (scan : Nat → Candle → P → Except String (Option (Trade × P)))
    (s : EngState P) (i : Nat) (c : Candle) : Except String (EngState P) :=
  match s.open_ with
  | some t =>
    match checkExit t i c with
    | .error e => .error e
    | .ok (some tc) => .ok ⟨s.closed ++ [tc], none, s.pats⟩
    | .ok none => .ok s
  | none =>
    match scan i c s.pats with
    | .error e => .error e
    | .ok (some (t, p)) => .ok ⟨s.closed, some t, p⟩
    | .ok none => .ok s

/-- `for i in range(len(klines_data))`, starting at bar `i`. -/
def runBars {P : Type}
    (scan : Nat → Candle → P → Except String (Option (Trade × P)))
    (i : Nat) : List Candle → EngState P → Except String (EngState P)
  | [], s => .ok s
  | c :: rest, s =>
    match engStep scan s i c with
    | .error e => .error e
    | .ok s' => runBars scan (i + 1) rest s'

/-- End-of-series handling: a still-open trade is force-closed at the last
candle's close with reason `"End of backtest"`. -/
def finalize {P : Type} (klines : List Candle) (s : EngState P) :
    Except String (List Trade) :=
  match s.open_ with
  | none => .ok s.closed
  | some t =>
    match close_trade t (candAt klines (klines.length - 1)).time
        (candAt klines (klines.length - 1)).close (klines.length - 1)
        "End of backtest" with
    | .error e => .error e
    | .ok tc => .ok (s.closed ++ [tc])

/-- A full strategy run over a candle series. -/
def runStrategy {P : Type}
    (scan : Nat → Candle → P → Except String (Option (Trade × P)))
    (klines : List Candle) (pats : P) : Except String (List Trade) :=
  match runBars scan 0 klines ⟨[], none, pats⟩ with
  | .error e => .error e
  | .ok s => finalize klines s

/-- The one non-rational float the core produces: `profit_factor` is
`float('inf')` when a backtest has no losing P&L. -/
inductive PFloat where
  | fin (q : Rat)
  | inf
deriving DecidableEq

/-- `backtesting.BacktestResult` (the `parameters` echo of the call's inputs
is not modelled; nothing in the analyzed core reads it). -/
structure BacktestResult where
  symbol : String
  interval : String
  start_time : Int
  end_time : Int
  total_trades : Nat
  winning_trades : Nat
  losing_trades : Nat
  win_rate : Rat
  total_profit_loss : Rat
  total_profit_loss_percent : Rat
  avg_win : Rat
  avg_loss : Rat
  largest_win : Rat
  largest_loss : Rat
  profit_factor : PFloat
  max_drawdown : Rat
  trades : List Trade
  strategy_name : String
deriving DecidableEq

/-- Python `max(list, default=d)` / `min(list, default=d)`. -/
def pyMaxD (l : List Rat) (d : Rat) : Rat :=
  match l with
  | [] => d
  | h :: t => t.foldl max h

def pyMinD (l : List Rat) (d : Rat) : Rat :=
  match l with
  | [] => d
  | h :: t => t.foldl min h

/-- `BacktestEngine._empty_result`: all-zero metrics (`profit_factor = 0`),
start/end times from the candle list when nonempty. -/
def empty_result (symbol interval : String) (klines : List Candle)
    (strategy_name : String) : BacktestResult :=
  ⟨symbol, interval, ((klines.head?).map (·.time)).getD 0,
    ((klines.getLast?).map (·.time)).getD 0,
    0, 0, 0, 0, 0, 0, 0, 0, 0, 0, .fin 0, 0, [], strategy_name⟩

/-- The max-drawdown walk of `_calculate_metrics`: cumulative P&L with a
running peak; returns the final `(peak, max_dd)`. -/
def drawdownWalk (pls : List Rat) : Rat × Rat × Rat :=
  pls.foldl
    (fun (acc : Rat × Rat × Rat) pl =>
      let cum := acc.1 + pl
      let peak := if cum > acc.2.1 then cum else acc.2.1
      let dd := peak - cum
      (cum, peak, if dd > acc.2.2 then dd else acc.2.2))
    (0, 0, 0)

/-- `BacktestEngine._calculate_metrics`.  The sums written in the source as
`sum(x for t in ts if t.profit_loss)` skip `None` and `0.0` entries; for
closed trades `profit_loss` is always set, and skipping zero addends does
not change a sum, so they are the plain sums of `profit_loss.getD 0`. -/
def calculate_metrics (trades : List Trade) (symbol interval : String)
    (start_time end_time : Int) (strategy_name : String) : BacktestResult :=
  if trades.isEmpty then
    empty_result symbol interval
      [{ (default : Candle) with time := start_time },
       { (default : Candle) with time := end_time }] strategy_name
  else
    let closed_trades := trades.filter (·.is_closed)
    let winning_trades := closed_trades.filter (·.is_winner)
    let losing_trades := closed_trades.filter (fun t => !t.is_winner)
    let total_profit_loss := (closed_trades.map (fun t => t.profit_loss.getD 0)).sum
    let total_plp := (closed_trades.map (fun t => t.profit_loss_percent.getD 0)).sum
    let win_rate : Rat :=
      if closed_trades.isEmpty then 0
      else (winning_trades.length : Rat) / (closed_trades.length : Rat) * 100
    let avg_win : Rat :=
      if winning_trades.isEmpty then 0
      else ((winning_trades.map (fun t => t.profit_loss.getD 0)).sum) /
        (winning_trades.length : Rat)
    let avg_loss : Rat :=
      if losing_trades.isEmpty then 0
      else ((losing_trades.map (fun t => |t.profit_loss.getD 0|)).sum) /
        (losing_trades.length : Rat)
    let largest_win := pyMaxD (winning_trades.map (fun t => t.profit_loss.getD 0)) 0
    let largest_loss := pyMinD (losing_trades.map (fun t => t.profit_loss.getD 0)) 0
    let total_wins := ((winning_trades.map (fun t => t.profit_loss.getD 0)).sum)
    let total_losses := |((losing_trades.map (fun t => t.profit_loss.getD 0)).sum)|
    let profit_factor : PFloat :=
      if total_losses > 0 then .fin (total_wins / total_losses) else .inf
    let walk := drawdownWalk (closed_trades.map (fun t => t.profit_loss.getD 0))
    let max_drawdown := if walk.2.1 > 0 then walk.2.2 / walk.2.1 * 100 else 0
    ⟨symbol, interval, start_time, end_time, closed_trades.length,
      winning_trades.length, losing_trades.length, win_rate, total_profit_loss,
      total_plp, avg_win, avg_loss, largest_win, largest_loss, profit_factor,
      max_drawdown, trades, strategy_name⟩

/-! ## The Order Block strategy (`test_orderblock_strategy`)

`analyze` serializes order blocks through `to_dict`, so their `type` entry
is the *string* `"bullish"`/`"bearish"`.  The strategy's first list
comprehension rebuilds them with `OrderBlock(**ob)`, which stores that raw
string in the (unenforced) `type` field; the follow-up block that would
convert it back to the `OrderBlockType` enum is guarded by
`isinstance(order_blocks[0], dict)` and therefore never runs.  The entry
conditions compare the string against the enum members, and in Python a
`str` never equals an `Enum` member.  `PyTypeTag` records which of the two
shapes the `type` attribute has, and `pyTagEq` is Python `==` between
them. -/

inductive PyTypeTag where
  | str (s : String)
  | enum (t : OrderBlockType)
deriving DecidableEq

/-- Python `==` on `str`/`OrderBlockType` values: values of different
types are never equal. -/
def pyTagEq : PyTypeTag → PyTypeTag → Bool
  | .str a, .str b => a == b
  | .enum a, .enum b => a == b
  | _, _ => false

/-- An order block as the strategy loop sees it: rebuilt from the
`to_dict` dictionary, `type` a string.  `strength` (rounded by `to_dict`)
and `tested`/`broken` feed only the unmodelled `metadata` echo. -/
structure ObView where
  type : PyTypeTag
  time : Int
  top : Rat
  bottom : Rat
  candle_index : Nat
deriving DecidableEq

/-- The order-block list `test_orderblock_strategy` works on: the
detector's output round-tripped through `to_dict` / `OrderBlock(**ob)`
(on the insufficient-data error object, `.get("order_blocks", [])` gives
`[]`). -/
def obViewsOf (klines : List Candle) : List ObView :=
  match analyze klines with
  | .insufficientData _ _ => []
  | .ok a => a.order_blocks.map fun ob =>
      ⟨.str ob.type.value, ob.time, ob.top, ob.bottom, ob.candle_index⟩

/-- The entry scan of `test_orderblock_strategy` at bar `i`: first block
formed strictly before `i` whose trigger fires and whose entry is not
already past its stop opens a trade.  Because every view's `type` is a
string and the conditions compare it with `OrderBlockType` members, both
branches are dead and the scan always falls through to the next block. -/
def obScan (klines : List Candle) (em : String) (rr : Rat) (i : Nat) (c : Candle) :
    List ObView → Option Trade
  | [] => none
  | ob :: rest =>
    if ob.candle_index ≥ i then obScan klines em rr i c rest
    else
      let ob_open_price : Rat :=
        if em = "open" then
          if ob.candle_index < klines.length then (candAt klines ob.candle_index).open_
          else if pyTagEq ob.type (.enum .bullish) then ob.top else ob.bottom
        else 0
      if pyTagEq ob.type (.enum .bullish) then
        let target_entry :=
          if em = "50%" then (ob.top + ob.bottom) / 2
          else if em = "open" then ob_open_price
          else ob.top
        if c.low ≤ target_entry then
          let entry_price := if c.open_ ≤ target_entry then c.open_ else target_entry
          let stop_loss := ob.bottom * 0.995
          if entry_price ≤ stop_loss then obScan klines em rr i c rest
          else some
            { entry_time := c.time, entry_price := entry_price, entry_index := i,
              signal_type := .buy, stop_loss := stop_loss,
              take_profit := entry_price + (entry_price - stop_loss) * rr,
              reason := "Bullish OB touch (" ++ em ++ ")" }
        else obScan klines em rr i c rest
      else if pyTagEq ob.type (.enum .bearish) then
        let target_entry :=
          if em = "50%" then (ob.top + ob.bottom) / 2
          else if em = "open" then ob_open_price
          else ob.bottom
        if c.high ≥ target_entry then
          let entry_price := if c.open_ ≥ target_entry then c.open_ else target_entry
          let stop_loss := ob.top * 1.005
          if entry_price ≥ stop_loss then obScan klines em rr i c rest
          else some
            { entry_time := c.time, entry_price := entry_price, entry_index := i,
              signal_type := .sell, stop_loss := stop_loss,
              take_profit := entry_price - (stop_loss - entry_price) * rr,
              reason := "Bearish OB touch (" ++ em ++ ")" }
        else obScan klines em rr i c rest
      else obScan klines em rr i c rest

/-- `BacktestEngine.test_orderblock_strategy` (the unused
`max_distance_percent` parameter is dropped). -/
def test_orderblock_strategy (klines : List Candle) (symbol interval : String)
    (rr : Rat) (entry_method : String) : Except String BacktestResult :=
  let views := obViewsOf klines
  match runStrategy
      (fun i c _ => .ok ((obScan klines entry_method rr i c views).map (·, ())))
      klines () with
  | .error e => .error e
  | .ok trades =>
    match pyIndex klines 0, pyIndex klines (klines.length - 1) with
    | .ok first, .ok last =>
      .ok (calculate_metrics trades symbol interval first.time last.time
        ("Order Block (" ++ entry_method ++ ")"))
    | .error e, _ => .error e
    | _, .error e => .error e

/-! ## The FVG strategy (`test_fvg_strategy`) -/

/-- The gap list `test_fvg_strategy` works on: here the reconstruction does
convert `type` back through `OrderBlockType(fvg["type"])`, so the views are
the detector's gaps with `filled = False`. -/
def fvgListOf (klines : List Candle) : List FairValueGap :=
  match analyze klines with
  | .insufficientData _ _ => []
  | .ok a => a.fair_value_gaps

/-- Entry scan of `test_fvg_strategy` at bar `i`: first unfilled gap formed
strictly before `i` that price re-enters with a fill fraction ≥
`fill_threshold` opens a trade and is marked `filled` (the in-place
mutation of the shared gap list, returned here as the updated pattern
state).  The percentage interpolated into the Python entry `reason` string
is overwritten by `_close_trade` before any trade becomes observable and is
not rendered. -/
def fvgScan (rr fill_threshold : Rat) (i : Nat) (c : Candle) :
    List FairValueGap → Except String (Option (Trade × List FairValueGap))
  | [] => .ok none
  | f :: rest =>
    if f.index_end ≥ i ∨ f.filled then
      (fvgScan rr fill_threshold i c rest).map
        (Option.map fun p => (p.1, f :: p.2))
    else if f.type = .bullish ∧ c.low ≤ f.top ∧ c.close > f.bottom then
      match pydiv (c.close - f.bottom) f.size with
      | .error e => .error e
      | .ok fill_percent =>
        if fill_percent ≥ fill_threshold then
          let entry_price := c.close
          let stop_loss := f.bottom * 0.995
          .ok (some
            ({ entry_time := c.time, entry_price := entry_price, entry_index := i,
               signal_type := .buy, stop_loss := stop_loss,
               take_profit := entry_price + (entry_price - stop_loss) * rr,
               reason := "Bullish FVG fill" },
             { f with filled := true } :: rest))
        else
          (fvgScan rr fill_threshold i c rest).map
            (Option.map fun p => (p.1, f :: p.2))
    else if f.type = .bearish ∧ c.high ≥ f.bottom ∧ c.close < f.top then
      match pydiv (f.top - c.close) f.size with
      | .error e => .error e
      | .ok fill_percent =>
        if fill_percent ≥ fill_threshold then
          let entry_price := c.close
          let stop_loss := f.top * 1.005
          .ok (some
            ({ entry_time := c.time, entry_price := entry_price, entry_index := i,
               signal_type := .sell, stop_loss := stop_loss,
               take_profit := entry_price - (stop_loss - entry_price) * rr,
               reason := "Bearish FVG fill" },
             { f with filled := true } :: rest))
        else
          (fvgScan rr fill_threshold i c rest).map
            (Option.map fun p => (p.1, f :: p.2))
    else
      (fvgScan rr fill_threshold i c rest).map
        (Option.map fun p => (p.1, f :: p.2))

/-- `BacktestEngine.test_fvg_strategy`. -/
def test_fvg_strategy (klines : List Candle) (symbol interval : String)
    (rr fill_threshold : Rat) : Except String BacktestResult :=
  match runStrategy (fvgScan rr fill_threshold) klines (fvgListOf klines) with
  | .error e => .error e
  | .ok trades =>
    match pyIndex klines 0, pyIndex klines (klines.length - 1) with
    | .ok first, .ok last =>
      .ok (calculate_metrics trades symbol interval first.time last.time "FVG Fill")
    | .error e, _ => .error e
    | _, .error e => .error e

/-! ## The Fibonacci strategy (`test_fibonacci_strategy`) -/

/-- Entry scan of `test_fibonacci_strategy`: a close within 0.5% of one of
the targeted retracement levels opens a trade in the retracement's
direction — with no entry-past-stop rejection, unlike the other
strategies. -/
def fiboScan (fibo : FibonacciRetracement) (targets : List FibonacciLevel)
    (rr : Rat) (i : Nat) (c : Candle) (_ : Unit) :
    Except String (Option (Trade × Unit)) :=
  match find_price_near_fibo_level c.close targets 0.5 with
  | .error e => .error e
  | .ok none => .ok none
  | .ok (some lvl) =>
    if fibo.direction = "uptrend" then
      let entry_price := c.close
      let stop_loss := fibo.swing_low * 0.995
      .ok (some
        ({ entry_time := c.time, entry_price := entry_price, entry_index := i,
           signal_type := .buy, stop_loss := stop_loss,
           take_profit := entry_price + (entry_price - stop_loss) * rr,
           reason := "Fibo " ++ lvl.label ++ " touch (uptrend)" }, ()))
    else
      let entry_price := c.close
      let stop_loss := fibo.swing_high * 1.005
      .ok (some
        ({ entry_time := c.time, entry_price := entry_price, entry_index := i,
           signal_type := .sell, stop_loss := stop_loss,
           take_profit := entry_price - (stop_loss - entry_price) * rr,
           reason := "Fibo " ++ lvl.label ++ " touch (downtrend)" }, ()))

/-- `BacktestEngine.test_fibonacci_strategy` called with an explicit level
list (`target_levels=None` defaults to `[0.618, 0.786]` at the call sites
modelled below).  Level filtering is Python `level.ratio in target_levels`. -/
def test_fibonacci_strategy (klines : List Candle) (symbol interval : String)
    (target_levels : List Rat) (rr : Rat) : Except String BacktestResult :=
  match calculate_auto_retracements klines 100 with
  | [] => .ok (empty_result symbol interval klines "Fibonacci Retracement")
  | fibo :: _ =>
    let targets := fibo.levels.filter fun l => target_levels.contains l.ratio
    match runStrategy (fiboScan fibo targets rr) klines () with
    | .error e => .error e
    | .ok trades =>
      match pyIndex klines 0, pyIndex klines (klines.length - 1) with
      | .ok first, .ok last =>
        .ok (calculate_metrics trades symbol interval first.time last.time
          "Fibonacci Retracement")
      | .error e, _ => .error e
      | _, .error e => .error e

/-- `test_fibonacci_strategy` exactly as `analyze_timeframe` invokes it:
`test_fibonacci_strategy(klines_data, symbol, timeframe, risk_reward)`
passes the float `risk_reward` positionally into `target_levels`.  The
empty-retracement early return never touches `target_levels`; otherwise the
filter `[l for l in fibo.levels if l.ratio in target_levels]` evaluates
`l.ratio in <float>` on the first of the seven default levels and raises
`TypeError`. -/
def test_fibonacci_strategy_mistargeted (klines : List Candle)
    (symbol interval : String) (_rr_in_target_slot : Rat) :
    Except String BacktestResult :=
  match calculate_auto_retracements klines 100 with
  | [] => .ok (empty_result symbol interval klines "Fibonacci Retracement")
  | _ :: _ => .error "TypeError: argument of type float is not iterable"

/-! ## The CISD strategy (`test_cisd_strategy`) -/

/-- The zone list `test_cisd_strategy` works on: `CISD(**c)` on each
`to_dict` dictionary reconstructs the dataclass fields (with a string
`type`, which the strategy's `cisd.type == "bullish"` comparison would
match). -/
def cisdZonesOf (klines : List Candle) : List CISDRec :=
  match analyze klines with
  | .insufficientData _ _ => []
  | .ok a => a.cisd_zones

/-- Entry scan of `test_cisd_strategy`: the very first statement of the
pattern loop is `if cisd.break_candle_index >= i`, but the `CISD`
dataclass defines `candle_index` (and `liquidity_swept_level`, where the
loop later reads `sweep_price`).  Attribute lookup on the first zone
therefore raises `AttributeError`; only an empty zone list completes the
scan. -/
def cisdScan (zones : List CISDRec) (_ : Nat) (_ : Candle) (_ : Unit) :
    Except String (Option (Trade × Unit)) :=
  match zones with
  | [] => .ok none
  | _ :: _ => .error "AttributeError: break_candle_index"

/-- `BacktestEngine.test_cisd_strategy`. -/
def test_cisd_strategy (klines : List Candle) (symbol interval : String)
    (rr : Rat) : Except String BacktestResult :=
  let _ := rr
  match runStrategy (cisdScan (cisdZonesOf klines)) klines () with
  | .error e => .error e
  | .ok trades =>
    match pyIndex klines 0, pyIndex klines (klines.length - 1) with
    | .ok first, .ok last =>
      .ok (calculate_metrics trades symbol interval first.time last.time
        "CISD Reversal")
    | .error e, _ => .error e
    | _, .error e => .error e

/-! ## Multi-timeframe ranking (`multi_timeframe_analysis.py`) -/

/-- `multi_timeframe_analysis.IndicatorRanking` (the derived
`confidence_level` label of `to_dict` is presentation only). -/
structure IndicatorRanking where
  indicator_name : String
  timeframe : String
  win_rate : Rat
  total_trades : Nat
  profit_factor : PFloat
  avg_win : Rat
  avg_loss : Rat
  max_drawdown : Rat
  score : Rat
deriving DecidableEq

/-- `MultiTimeframeAnalyzer.calculate_indicator_score`: 0 for a zero-trade
result, otherwise the 40/30/15/15-weighted score clamped to 100.  The
profit-factor term evaluates `float('inf') > 0` to true and
`min(inf / 2, 1.0)` to 1. -/
def calculate_indicator_score (result : BacktestResult) : Rat :=
  if result.total_trades = 0 then 0
  else
    let win_rate_score := result.win_rate / 100 * 40
    let pf_normalized : Rat :=
      match result.profit_factor with
      | .inf => 1
      | .fin q => if q > 0 then min (q / 2) 1 else 0
    let pf_score := pf_normalized * 30
    let trades_score := min ((result.total_trades : Rat) / 10) 1 * 15
    let dd_normalized := max 0 (1 - result.max_drawdown / 50)
    let dd_score := dd_normalized * 15
    min (win_rate_score + pf_score + trades_score + dd_score) 100

/-- The four backtests `analyze_timeframe` runs, in `STRATEGIES` order,
each inside `try/except` (a raising strategy is logged and skipped).  All
but the Fibonacci call pass `risk_reward` into `risk_reward_ratio`; the
Fibonacci call passes it positionally into `target_levels`
(`test_fibonacci_strategy_mistargeted`). -/
def timeframeRankings (symbol timeframe : String) (klines : List Candle)
    (risk_reward : Rat) : List IndicatorRanking :=
  ([("Order Block", test_orderblock_strategy klines symbol timeframe risk_reward "edge"),
    ("Fair Value Gap", test_fvg_strategy klines symbol timeframe risk_reward 0.5),
    ("Fibonacci", test_fibonacci_strategy_mistargeted klines symbol timeframe risk_reward),
    ("CISD", test_cisd_strategy klines symbol timeframe risk_reward)]).filterMap
    fun p =>
      match p.2 with
      | .error _ => none
      | .ok r => some ⟨p.1, timeframe, r.win_rate, r.total_trades, r.profit_factor,
          r.avg_win, r.avg_loss, r.max_drawdown, calculate_indicator_score r⟩

/-- Python's stable `sort(key=lambda x: x.score, reverse=True)`. -/
def rankSortLe (a b : IndicatorRanking) : Bool := decide (b.score ≤ a.score)

/-- `multi_timeframe_analysis.TimeframeAnalysis`. -/
structure TimeframeAnalysis where
  timeframe : String
  total_score : Rat
  indicators : List IndicatorRanking
  best_indicator : Option IndicatorRanking
  respect_rate : Rat
deriving DecidableEq

/-- `MultiTimeframeAnalyzer.analyze_timeframe`: ranks the indicators by
score, averages the scores (division guarded by the nonemptiness check),
and computes the score-weighted mean win rate — whose division by
`sum(ind.score ...)` is *not* guarded against a zero score sum. -/
def analyze_timeframe (symbol timeframe : String) (klines : List Candle)
    (risk_reward : Rat) : Except String TimeframeAnalysis :=
  let indicator_rankings :=
    pySort rankSortLe (timeframeRankings symbol timeframe klines risk_reward)
  let total_score : Rat :=
    if indicator_rankings.isEmpty then 0
    else ((indicator_rankings.map (·.score)).sum) / (indicator_rankings.length : Rat)
  match (if indicator_rankings.isEmpty then .ok (0 : Rat)
    else
      pydiv ((indicator_rankings.map fun ind => ind.win_rate * ind.score).sum)
        ((indicator_rankings.map (·.score)).sum) : Except String Rat) with
  | .error e => .error e
  | .ok respect_rate =>
    .ok ⟨timeframe, total_score, indicator_rankings, indicator_rankings.head?,
      respect_rate⟩

/-- Python's stable `sort(key=lambda x: x.total_score, reverse=True)`. -/
def tfSortLe (a b : TimeframeAnalysis) : Bool := decide (b.total_score ≤ a.total_score)

/-- `multi_timeframe_analysis.MultiTimeframeReport` (the `summary`
dictionary — presentation-layer aggregation echoed to the web layer and
read by none of the verified components — is not modelled). -/
structure MultiTimeframeReport where
  symbol : String
  timeframes_analyzed : List TimeframeAnalysis
  best_timeframe : Option TimeframeAnalysis
  best_overall_indicator : Option IndicatorRanking
deriving DecidableEq

/-- The per-timeframe loop body of `analyze_all_timeframes`: each kept
timeframe is analyzed in turn, an uncaught exception aborting the scan. -/
def analyzeEach (symbol : String) (risk_reward : Rat) :
    List (String × List Candle) → Except String (List TimeframeAnalysis)
  | [] => .ok []
  | p :: rest =>
    match analyze_timeframe symbol p.1 p.2 risk_reward with
    | .error e => .error e
    | .ok a =>
      match analyzeEach symbol risk_reward rest with
      | .error e => .error e
      | .ok tail => .ok (a :: tail)

/-- `MultiTimeframeAnalyzer.analyze_all_timeframes`: timeframes with fewer
than 100 candles are skipped with a warning; each remaining timeframe is
analyzed (`analyze_timeframe` exceptions propagate), indicators are pooled
in input order before the per-score sorts, and the best timeframe /
indicator are the heads of the sorted lists.  `klines_by_timeframe` is an
insertion-ordered Python dict, modelled as an association list. -/
def analyze_all_timeframes (symbol : String)
    (klines_by_timeframe : List (String × List Candle)) (risk_reward : Rat) :
    Except String MultiTimeframeReport :=
  match analyzeEach symbol risk_reward
      (klines_by_timeframe.filter fun p => decide (100 ≤ p.2.length)) with
  | .error e => .error e
  | .ok timeframe_analyses =>
    let all_indicators := timeframe_analyses.flatMap (·.indicators)
    let sorted_tfs := pySort tfSortLe timeframe_analyses
    let sorted_inds := pySort rankSortLe all_indicators
    .ok ⟨symbol, sorted_tfs, sorted_tfs.head?, sorted_inds.head?⟩

/-! ## Concrete candle series used to instantiate the claims -/

/-- A neutral candle (`open = close`, so neither bullish nor bearish). -/
def doji (t : Int) : Candle := ⟨t, 100, 101, 99, 100, 0⟩

/-- 24 candles realising the spec's order-block scenario: one bearish
candle at index 17 followed by a three-candle rally, a retest that touches
the block's top edge at index 22, and a quiet final bar. -/
def obSeries : List Candle :=
  ((List.range 17).map fun i => doji i) ++
    [⟨17, 100, 101, 97, 98, 0⟩,
     ⟨18, 105, 111, 104, 110, 0⟩,
     ⟨19, 110, 116, 109, 115, 0⟩,
     ⟨20, 115, 121, 114, 120, 0⟩,
     ⟨21, 118, 119, 117, 118, 0⟩,
     ⟨22, 101, 102, 96, 99, 0⟩,
     ⟨23, 99, 100, 98, 99, 0⟩]

/-- The single order block the detector finds on `obSeries`. -/
def obSeriesBlock : OrderBlock := ⟨.bullish, 17, 100, 97, 17, 1, false, false⟩

/-- 21 candles with a swing low at index 5 whose liquidity is swept and
reclaimed at index 12: the SMC analyzer reports one bullish CISD zone. -/
def cisdSeries : List Candle :=
  ((List.range 5).map fun i => doji i) ++
    [⟨5, 100, 101, 95, 100, 0⟩] ++
    ((List.range 6).map fun i => doji (6 + i)) ++
    [⟨12, 100, 101, 94, 100, 0⟩] ++
    ((List.range 8).map fun i => doji (13 + i))

/-- `obSeries` padded with quiet candles to 100 bars: enough for the
auto-Fibonacci lookback and the multi-timeframe candle minimum, with a
fair value gap the FVG strategy trades. -/
def paddedSeries : List Candle :=
  obSeries ++ ((List.range 76).map fun i => doji (24 + i))

/-- 50 identical flat candles: every detector returns nothing and every
strategy backtest yields zero trades. -/
def flatSeries : List Candle :=
  (List.range 50).map fun i => ⟨i, 100, 100, 100, 100, 0⟩

/-- Five candles with a lone peak at index 2, for the swing-window claims. -/
def peakSeries : List Candle :=
  [⟨0, 1, 1, 1, 1, 0⟩, ⟨1, 2, 2, 1, 2, 0⟩, ⟨2, 5, 5, 2, 5, 0⟩,
   ⟨3, 3, 3, 2, 3, 0⟩, ⟨4, 2, 2, 1, 2, 0⟩]

/-- The FVG backtest run on `paddedSeries`, extracted for a concrete
single-position check (the run succeeds, so the fallback arm is inert). -/
def paddedFvgResult : BacktestResult :=
  match test_fvg_strategy paddedSeries "BTCUSDT" "1h" 2 0.5 with
  | .ok r => r
  | .error _ => empty_result "BTCUSDT" "1h" [] "FVG Fill"

/-- A concrete backtest summary for exercising the indicator score. -/
def scoreSample : BacktestResult :=
  ⟨"BTCUSDT", "1h", 0, 99, 5, 3, 2, 60, 10, 5, 4, 1, 6, -2, .fin (3 / 2), 10, [],
    "Order Block (edge)"⟩

/-! ## Predicates the claims are stated with -/

/-- A trade occupies the closed index range `[entry_index, exit_index]`. -/
def TradeSpan (t : Trade) : Prop :=
  ∃ e, t.exit_index = some e ∧ t.entry_index ≤ e

/-- Earlier trades in a backtest's list close strictly before later ones
open: no two `[entry_index, exit_index]` ranges overlap. -/
def TradesDisjoint (l : List Trade) : Prop :=
  l.Pairwise fun a b => ∀ e, a.exit_index = some e → e < b.entry_index

/-- An entry scan opens its trades at the bar under evaluation. -/
def ScanEntryOK {P : Type}
    (scan : Nat → Candle → P → Except String (Option (Trade × P))) : Prop :=
  ∀ i c p t p', scan i c p = .ok (some (t, p')) → t.entry_index = i

/-- The loop invariant of the shared strategy engine after the bars before
`bound` have run: closed trades are pairwise disjoint and exited before
`bound`, and an open trade postdates every closed exit. -/
def StateInv {P : Type} (s : EngState P) (bound : Nat) : Prop :=
  TradesDisjoint s.closed ∧
    (∀ t ∈ s.closed, TradeSpan t ∧ ∀ e, t.exit_index = some e → e < bound) ∧
    ∀ t, s.open_ = some t →
      t.entry_index < bound ∧ ∀ u ∈ s.closed, ∀ e, u.exit_index = some e →
        e < t.entry_index

/-- Python `value >= 0` on the values `profit_factor` can take
(`float('inf') >= 0` is true). -/
def PFloat.nonneg : PFloat → Bool
  | .inf => true
  | .fin q => decide (0 ≤ q)

/-- The indicator score exactly as the specification words it:
`min(100, 40·(win_rate/100) + 30·min(profit_factor/2, 1) +
15·min(trades/10, 1) + 15·max(0, 1 - drawdown/50))`, and 0 for a zero-trade
strategy (`min(inf/2, 1) = 1`). -/
def specIndicatorScore (r : BacktestResult) : Rat :=
  if r.total_trades = 0 then 0
  else
    min 100
      (40 * (r.win_rate / 100) +
        30 * (match r.profit_factor with | .inf => 1 | .fin q => min (q / 2) 1) +
        15 * min ((r.total_trades : Rat) / 10) 1 +
        15 * max 0 (1 - r.max_drawdown / 50))

/-! ## Sorting lemmas -/

theorem stableInsert_perm {α : Type} (le : α → α → Bool) (a : α) (l : List α) :
    (stableInsert le a l).Perm (a :: l) := by
  induction l with
  | nil => exact List.Perm.refl _
  | cons b t ih =>
    simp only [stableInsert]
    split
    · exact List.Perm.refl _
    · exact (ih.cons b).trans (List.Perm.swap a b t)

theorem pySort_perm {α : Type} (le : α → α → Bool) (l : List α) :
    (pySort le l).Perm l := by
  induction l with
  | nil => exact List.Perm.refl _
  | cons a t ih => exact (stableInsert_perm le a (pySort le t)).trans (ih.cons a)

theorem mem_pySort {α : Type} {le : α → α → Bool} {l : List α} {x : α} :
    x ∈ pySort le l ↔ x ∈ l := (pySort_perm le l).mem_iff

/-! ## Trade-closing lemmas -/

theorem close_trade_ok {t : Trade} {ti : Int} {p : Rat} {i : Nat} {r : String}
    {tc : Trade} (h : close_trade t ti p i r = .ok tc) :
    tc.entry_time = t.entry_time ∧ tc.entry_price = t.entry_price ∧
      tc.entry_index = t.entry_index ∧ tc.signal_type = t.signal_type ∧
      tc.stop_loss = t.stop_loss ∧ tc.take_profit = t.take_profit ∧
      tc.exit_index = some i ∧ tc.exit_price = some p ∧ tc.reason = r := by
  simp only [close_trade] at h
  split at h
  · exact Except.noConfusion h
  · cases h
    exact ⟨rfl, rfl, rfl, rfl, rfl, rfl, rfl, rfl, rfl⟩

theorem close_trade_of_ne (t : Trade) (ti : Int) (p : Rat) (i : Nat) (r : String)
    (h : t.entry_price ≠ 0) : ∃ tc, close_trade t ti p i r = .ok tc := by
  simp only [close_trade, pydiv, if_neg h]
  exact ⟨_, rfl⟩

theorem checkExit_ok_some {t : Trade} {i : Nat} {c : Candle} {tc : Trade}
    (h : checkExit t i c = .ok (some tc)) :
    tc.entry_index = t.entry_index ∧ tc.exit_index = some i := by
  unfold checkExit at h
  split at h
  · split at h
    · exact absurd h (by simp)
    · rename_i tc' hc
      cases h
      obtain ⟨-, -, h3, -, -, -, h7, -, -⟩ := close_trade_ok hc
      exact ⟨h3, h7⟩
  · split at h
    · split at h
      · exact absurd h (by simp)
      · rename_i tc' hc
        cases h
        obtain ⟨-, -, h3, -, -, -, h7, -, -⟩ := close_trade_ok hc
        exact ⟨h3, h7⟩
    · split at h
      · split at h
        · exact absurd h (by simp)
        · rename_i tc' hc
          cases h
          obtain ⟨-, -, h3, -, -, -, h7, -, -⟩ := close_trade_ok hc
          exact ⟨h3, h7⟩
      · split at h
        · split at h
          · exact absurd h (by simp)
          · rename_i tc' hc
            cases h
            obtain ⟨-, -, h3, -, -, -, h7, -, -⟩ := close_trade_ok hc
            exact ⟨h3, h7⟩
        · exact absurd h (by simp)

theorem checkExit_total (t : Trade) (i : Nat) (c : Candle)
    (h : t.entry_price ≠ 0) : ∃ v, checkExit t i c = .ok v := by
  unfold checkExit
  split
  · obtain ⟨tc, hc⟩ := close_trade_of_ne t c.time t.stop_loss i "Stop Loss" h
    rw [hc]
    exact ⟨some tc, rfl⟩
  · split
    · obtain ⟨tc, hc⟩ := close_trade_of_ne t c.time t.stop_loss i "Stop Loss" h
      rw [hc]
      exact ⟨some tc, rfl⟩
    · split
      · obtain ⟨tc, hc⟩ := close_trade_of_ne t c.time t.take_profit i "Take Profit" h
        rw [hc]
        exact ⟨some tc, rfl⟩
      · split
        · obtain ⟨tc, hc⟩ := close_trade_of_ne t c.time t.take_profit i "Take Profit" h
          rw [hc]
          exact ⟨some tc, rfl⟩
        · exact ⟨none, rfl⟩

/-! ## Engine invariants -/

theorem TradesDisjoint_append {l : List Trade} {tc : Trade}
    (hl : TradesDisjoint l)
    (h : ∀ u ∈ l, ∀ e, u.exit_index = some e → e < tc.entry_index) :
    TradesDisjoint (l ++ [tc]) := by
  unfold TradesDisjoint at *
  rw [List.pairwise_append]
  refine ⟨hl, List.pairwise_singleton _ _, ?_⟩
  intro u hu b hb
  rw [List.mem_singleton] at hb
  subst hb
  exact h u hu

theorem StateInv_mono {P : Type} {s : EngState P} {b b' : Nat}
    (h : StateInv s b) (hb : b ≤ b') : StateInv s b' := by
  obtain ⟨h1, h2, h3⟩ := h
  refine ⟨h1, fun t ht => ⟨(h2 t ht).1, fun e he => lt_of_lt_of_le ((h2 t ht).2 e he) hb⟩,
    fun t ht => ⟨lt_of_lt_of_le ((h3 t ht).1) hb, (h3 t ht).2⟩⟩

theorem engStep_inv {P : Type}
    {scan : Nat → Candle → P → Except String (Option (Trade × P))}
    (hscan : ScanEntryOK scan) {s s' : EngState P} {i : Nat} {c : Candle}
    (hinv : StateInv s i) (h : engStep scan s i c = .ok s') :
    StateInv s' (i + 1) := by
  obtain ⟨h1, h2, h3⟩ := hinv
  unfold engStep at h
  split at h
  · rename_i t hopen
    split at h
    · exact Except.noConfusion h
    · rename_i tc hce
      cases h
      obtain ⟨he, hx⟩ := checkExit_ok_some hce
      refine ⟨?_, ?_, ?_⟩
      · exact TradesDisjoint_append h1 fun u hu e hue => he ▸ (h3 t hopen).2 u hu e hue
      · intro u hu
        rcases List.mem_append.mp hu with hu | hu
        · exact ⟨(h2 u hu).1, fun e hue => Nat.lt_succ_of_lt ((h2 u hu).2 e hue)⟩
        · rw [List.mem_singleton] at hu
          subst hu
          refine ⟨⟨i, hx, ?_⟩, fun e hue => ?_⟩
          · exact he ▸ Nat.le_of_lt (h3 t hopen).1
          · rw [hx] at hue
            cases hue
            exact Nat.lt_succ_self i
      · intro u hu
        exact Option.noConfusion hu
    · rename_i hce
      cases h
      exact StateInv_mono ⟨h1, h2, h3⟩ (Nat.le_succ i)
  · rename_i hopen
    split at h
    · exact Except.noConfusion h
    · rename_i t p hsc
      cases h
      refine ⟨h1, ?_, ?_⟩
      · exact fun u hu => ⟨(h2 u hu).1, fun e hue => Nat.lt_succ_of_lt ((h2 u hu).2 e hue)⟩
      · intro u hu
        cases hu
        have hei := hscan _ _ _ _ _ hsc
        exact ⟨hei ▸ Nat.lt_succ_self i, fun v hv e hve => hei ▸ (h2 v hv).2 e hve⟩
    · rename_i hsc
      cases h
      exact StateInv_mono ⟨h1, h2, h3⟩ (Nat.le_succ i)

theorem runBars_inv {P : Type}
    {scan : Nat → Candle → P → Except String (Option (Trade × P))}
    (hscan : ScanEntryOK scan) :
    ∀ (cs : List Candle) (i : Nat) (s s' : EngState P), StateInv s i →
      runBars scan i cs s = .ok s' → StateInv s' (i + cs.length) := by
  intro cs
  induction cs with
  | nil =>
    intro i s s' hinv h
    cases h
    rw [List.length_nil, Nat.add_zero]
    exact hinv
  | cons c rest ih =>
    intro i s s' hinv h
    unfold runBars at h
    split at h
    · exact Except.noConfusion h
    · rename_i s1 hs1
      have hlen : i + (c :: rest).length = i + 1 + rest.length := by
        rw [List.length_cons]
        omega
      rw [hlen]
      exact ih (i + 1) s1 s' (engStep_inv hscan hinv hs1) h

theorem finalize_inv {P : Type} {klines : List Candle} {s : EngState P}
    {l : List Trade} (hinv : StateInv s klines.length)
    (h : finalize klines s = .ok l) :
    TradesDisjoint l ∧ ∀ t ∈ l, TradeSpan t := by
  obtain ⟨h1, h2, h3⟩ := hinv
  unfold finalize at h
  split at h
  · rename_i hopen
    cases h
    exact ⟨h1, fun t ht => (h2 t ht).1⟩
  · rename_i t hopen
    split at h
    · exact Except.noConfusion h
    · rename_i tc hc
      cases h
      obtain ⟨-, -, he, -, -, -, hx, -, -⟩ := close_trade_ok hc
      have hentry : t.entry_index < klines.length := (h3 t hopen).1
      constructor
      · refine TradesDisjoint_append h1 fun u hu e hue => ?_
        exact he ▸ (h3 t hopen).2 u hu e hue
      · intro u hu
        rcases List.mem_append.mp hu with hu | hu
        · exact (h2 u hu).1
        · rw [List.mem_singleton] at hu
          subst hu
          refine ⟨klines.length - 1, hx, ?_⟩
          rw [he]
          omega

theorem runStrategy_sound {P : Type}
    {scan : Nat → Candle → P → Except String (Option (Trade × P))}
    (hscan : ScanEntryOK scan) {klines : List Candle} {p : P} {l : List Trade}
    (h : runStrategy scan klines p = .ok l) :
    TradesDisjoint l ∧ ∀ t ∈ l, TradeSpan t := by
  unfold runStrategy at h
  split at h
  · exact Except.noConfusion h
  · rename_i s hs
    have hinit : StateInv (⟨[], none, p⟩ : EngState P) 0 :=
      ⟨List.Pairwise.nil, fun t ht => absurd ht (List.not_mem_nil t),
        fun t ht => Option.noConfusion ht⟩
    have := runBars_inv hscan klines 0 _ s hinit hs
    rw [Nat.zero_add] at this
    exact finalize_inv this h

/-- On a bar with an open trade the engine never opens another: the bar
either keeps the trade open or closes it, and an entry can only happen on a
later bar. -/
theorem engStep_no_reopen {P : Type}
    {scan : Nat → Candle → P → Except String (Option (Trade × P))}
    {s s' : EngState P} {i : Nat} {c : Candle} {t t' : Trade}
    (hopen : s.open_ = some t) (h : engStep scan s i c = .ok s')
    (h' : s'.open_ = some t') : t' = t := by
  unfold engStep at h
  split at h
  · rename_i u hu
    rw [hopen] at hu
    cases hu
    split at h
    · exact Except.noConfusion h
    · cases h
      exact Option.noConfusion h'
    · cases h
      rw [hopen] at h'
      cases h'
      rfl
  · rename_i hu
    rw [hopen] at hu
    exact Option.noConfusion hu

/-- A run whose entry scan never fires leaves the engine state untouched. -/
theorem runBars_inert {P : Type}
    {scan : Nat → Candle → P → Except String (Option (Trade × P))} {p : P}
    (h : ∀ i c, scan i c p = .ok none) :
    ∀ (cs : List Candle) (i : Nat),
      runBars scan i cs ⟨[], none, p⟩ = .ok ⟨[], none, p⟩ := by
  intro cs
  induction cs with
  | nil => intro i; rfl
  | cons c rest ih =>
    intro i
    show runBars scan i (c :: rest) ⟨[], none, p⟩ = _
    unfold runBars engStep
    simp only [h i c]
    exact ih (i + 1)

theorem calculate_metrics_trades (trades : List Trade) (symbol interval : String)
    (start_time end_time : Int) (strategy_name : String) :
    (calculate_metrics trades symbol interval start_time end_time
      strategy_name).trades = trades := by
  unfold calculate_metrics
  split
  · rename_i hemp
    rw [List.isEmpty_iff.mp hemp]
    rfl
  · rfl

/-! ## Entry-scan lemmas -/

/-- Un-skipping the FVG scan: a trade found while the head gap is passed
over comes from the tail. -/
theorem fvg_skip_inv {rr θ : Rat} {i : Nat} {c : Candle} {f : FairValueGap}
    {rest : List FairValueGap} {t : Trade} {l' : List FairValueGap}
    (h : Except.map (Option.map fun p => (p.1, f :: p.2))
      (fvgScan rr θ i c rest) = .ok (some (t, l'))) :
    ∃ l2, fvgScan rr θ i c rest = .ok (some (t, l2)) := by
  cases hr : fvgScan rr θ i c rest with
  | error e => rw [hr] at h; exact Except.noConfusion h
  | ok v =>
    rw [hr] at h
    cases v with
    | none => exact Option.noConfusion (Except.ok.inj h)
    | some p =>
      obtain ⟨p1, p2⟩ := p
      simp only [Except.map, Option.map] at h
      cases h
      exact ⟨p2, rfl⟩

theorem fvgScan_entry {rr θ : Rat} {i : Nat} {c : Candle} :
    ∀ {l l' : List FairValueGap} {t : Trade},
      fvgScan rr θ i c l = .ok (some (t, l')) → t.entry_index = i := by
  intro l
  induction l with
  | nil => intro l' t h; exact Option.noConfusion (Except.ok.inj h)
  | cons f rest ih =>
    intro l' t h
    simp only [fvgScan] at h
    repeat' split at h
    all_goals first
      | exact Except.noConfusion h
      | (cases h; rfl)
      | (obtain ⟨l2, hr⟩ := fvg_skip_inv h; exact ih hr)

theorem fvgScan_entryOK (rr θ : Rat) : ScanEntryOK (fvgScan rr θ) :=
  fun _ _ _ _ _ h => fvgScan_entry h

theorem fiboScan_entryOK (fibo : FibonacciRetracement)
    (targets : List FibonacciLevel) (rr : Rat) :
    ScanEntryOK (fiboScan fibo targets rr) := by
  intro i c p t p' h
  simp only [fiboScan] at h
  repeat' split at h
  all_goals first
    | exact Except.noConfusion h
    | exact Option.noConfusion (Except.ok.inj h)
    | (cases h; rfl)

theorem cisdScan_entryOK (zones : List CISDRec) :
    ScanEntryOK (cisdScan zones) := by
  intro i c p t p' h
  unfold cisdScan at h
  split at h
  · exact Option.noConfusion (Except.ok.inj h)
  · exact Except.noConfusion h

/-! ## The order-block strategy never trades -/

theorem obViewsOf_str {klines : List Candle} {ob : ObView}
    (h : ob ∈ obViewsOf klines) : ∃ s, ob.type = .str s := by
  unfold obViewsOf at h
  split at h
  · exact absurd h (List.not_mem_nil ob)
  · obtain ⟨b, -, hb⟩ := List.mem_map.mp h
    exact ⟨b.type.value, by rw [← hb]⟩

theorem pyTagEq_str_enum (s : String) (t : OrderBlockType) :
    pyTagEq (.str s) (.enum t) = false := rfl

theorem obScan_none {klines : List Candle} {em : String} {rr : Rat} {i : Nat}
    {c : Candle} :
    ∀ {obs : List ObView}, (∀ ob ∈ obs, ∃ s, ob.type = .str s) →
      obScan klines em rr i c obs = none := by
  intro obs
  induction obs with
  | nil => intro _; rfl
  | cons ob rest ih =>
    intro hstr
    obtain ⟨s, hs⟩ := hstr ob (List.mem_cons_self ob rest)
    have hrest := fun o ho => hstr o (List.mem_cons_of_mem ob ho)
    unfold obScan
    split
    · exact ih hrest
    · rw [hs, pyTagEq_str_enum, pyTagEq_str_enum]
      simp only [Bool.false_eq_true, if_false]
      exact ih hrest

theorem obScanWrap_entryOK (klines : List Candle) (em : String) (rr : Rat)
    (views : List ObView) (hstr : ∀ ob ∈ views, ∃ s, ob.type = .str s) :
    ScanEntryOK (fun i c (_ : Unit) =>
      (.ok ((obScan klines em rr i c views).map (·, ())) :
        Except String (Option (Trade × Unit)))) := by
  intro i c p t p' h
  simp only [] at h
  rw [obScan_none hstr] at h
  exact Option.noConfusion (Except.ok.inj h)

/-- Because the rebuilt blocks carry string `type` tags, the whole
order-block strategy run opens no trade: on nonempty data it returns the
all-zero empty result. -/
theorem ob_strategy_empty (klines : List Candle) (symbol interval : String)
    (rr : Rat) (em : String) (hne : klines ≠ []) :
    ∃ r, test_orderblock_strategy klines symbol interval rr em = .ok r ∧
      r.trades = [] ∧ r.total_trades = 0 := by
  have hscan : ∀ i c, (fun i c (_ : Unit) =>
      (.ok ((obScan klines em rr i c (obViewsOf klines)).map (·, ())) :
        Except String (Option (Trade × Unit)))) i c () = .ok none := by
    intro i c
    show Except.ok ((obScan klines em rr i c (obViewsOf klines)).map (·, ())) = _
    rw [obScan_none fun ob hob => obViewsOf_str hob]
    rfl
  have hrun : runStrategy (fun i c (_ : Unit) =>
      (.ok ((obScan klines em rr i c (obViewsOf klines)).map (·, ())) :
        Except String (Option (Trade × Unit)))) klines () = .ok [] := by
    unfold runStrategy
    rw [runBars_inert hscan klines 0]
    rfl
  have hlen : 0 < klines.length := List.length_pos.mpr hne
  have h0 : pyIndex klines 0 = .ok (klines.get ⟨0, hlen⟩) := by
    unfold pyIndex
    rw [List.get?_eq_get hlen]
  have hl : pyIndex klines (klines.length - 1) =
      .ok (klines.get ⟨klines.length - 1, by omega⟩) := by
    unfold pyIndex
    rw [List.get?_eq_get (by omega : klines.length - 1 < klines.length)]
  simp only [test_orderblock_strategy]
  rw [hrun, h0, hl]
  exact ⟨_, rfl, calculate_metrics_trades _ _ _ _ _ _, rfl⟩

/-- On empty data the trading loop is skipped and `klines_data[0]` raises. -/
theorem ob_strategy_nil (symbol interval : String) (rr : Rat) (em : String) :
    test_orderblock_strategy [] symbol interval rr em = .error "IndexError" := rfl

/-- `test_fibonacci_strategy` with an empty `target_levels`: no level ever
qualifies, so the call returns a zero-trade result for every input. -/
theorem fibo_empty_targets (klines : List Candle) (symbol interval : String)
    (rr : Rat) :
    ∃ r, test_fibonacci_strategy klines symbol interval [] rr = .ok r ∧
      r.total_trades = 0 := by
  cases hretr : calculate_auto_retracements klines 100 with
  | nil =>
    refine ⟨empty_result symbol interval klines "Fibonacci Retracement", ?_, rfl⟩
    simp only [test_fibonacci_strategy, hretr]
  | cons fibo rest =>
    have hlen : ¬klines.length < 100 := by
      intro hl
      rw [calculate_auto_retracements, if_pos hl] at hretr
      exact List.noConfusion hretr
    have hne : klines ≠ [] := by
      intro he
      exact hlen (by rw [he]; exact Nat.lt_of_lt_of_le (Nat.zero_lt_succ 99) (le_refl 100))
    have htargets :
        fibo.levels.filter (fun l => List.contains ([] : List Rat) l.ratio) = [] := by
      rw [List.filter_eq_nil_iff]
      intro a _
      simp [List.contains]
    have hscan : ∀ i c, fiboScan fibo
        (fibo.levels.filter fun l => List.contains ([] : List Rat) l.ratio) rr i c
        () = .ok none := by
      intro i c
      rw [htargets]
      rfl
    have hrun : runStrategy (fiboScan fibo
        (fibo.levels.filter fun l => List.contains ([] : List Rat) l.ratio) rr)
        klines () = .ok [] := by
      unfold runStrategy
      rw [runBars_inert hscan klines 0]
      rfl
    have hl0 : 0 < klines.length := List.length_pos.mpr hne
    have h0 : pyIndex klines 0 = .ok (klines.get ⟨0, hl0⟩) := by
      unfold pyIndex
      rw [List.get?_eq_get hl0]
    have hl1 : pyIndex klines (klines.length - 1) =
        .ok (klines.get ⟨klines.length - 1, by omega⟩) := by
      unfold pyIndex
      rw [List.get?_eq_get (by omega : klines.length - 1 < klines.length)]
    simp only [test_fibonacci_strategy, hretr]
    rw [hrun, h0, hl1]
    exact ⟨_, rfl, rfl⟩

/-- The analysis a timeframe gets back is labelled with that timeframe. -/
theorem analyze_timeframe_label {symbol timeframe : String}
    {klines : List Candle} {rr : Rat} {a : TimeframeAnalysis}
    (h : analyze_timeframe symbol timeframe klines rr = .ok a) :
    a.timeframe = timeframe := by
  simp only [analyze_timeframe] at h
  repeat' split at h
  all_goals first
    | exact Except.noConfusion h
    | (cases h; rfl)

/-- `analyzeEach` analyzes exactly the given timeframes, in order. -/
theorem analyzeEach_labels {symbol : String} {rr : Rat} :
    ∀ {l : List (String × List Candle)} {as_ : List TimeframeAnalysis},
      analyzeEach symbol rr l = .ok as_ →
      as_.map (·.timeframe) = l.map Prod.fst := by
  intro l
  induction l with
  | nil =>
    intro as_ h
    cases h
    rfl
  | cons p rest ih =>
    intro as_ h
    unfold analyzeEach at h
    split at h
    · exact Except.noConfusion h
    · rename_i a ha
      split at h
      · exact Except.noConfusion h
      · rename_i tail htail
        cases h
        show a.timeframe :: _ = _
        rw [analyze_timeframe_label ha, ih htail]
        rfl

/-! ## Swing-detector lemmas -/

theorem mem_find_swing_highs {cs : List Candle} {n : Nat} {sp : SwingPoint} :
    sp ∈ find_swing_highs cs n ↔
      ∃ i, (n ≤ i ∧ i < n + (cs.length - 2 * n)) ∧ isSwingHighAt cs n i = true ∧
        (⟨(candAt cs i).time, (candAt cs i).high, i, true⟩ : SwingPoint) = sp := by
  unfold find_swing_highs swingIndices
  rw [List.mem_map]
  constructor
  · rintro ⟨i, hi, hsp⟩
    rw [List.mem_filter, List.mem_range'_1] at hi
    exact ⟨i, hi.1, hi.2, hsp⟩
  · rintro ⟨i, h1, h2, h3⟩
    exact ⟨i, List.mem_filter.mpr ⟨List.mem_range'_1.mpr h1, h2⟩, h3⟩

theorem mem_find_swing_lows {cs : List Candle} {n : Nat} {sp : SwingPoint} :
    sp ∈ find_swing_lows cs n ↔
      ∃ i, (n ≤ i ∧ i < n + (cs.length - 2 * n)) ∧ isSwingLowAt cs n i = true ∧
        (⟨(candAt cs i).time, (candAt cs i).low, i, false⟩ : SwingPoint) = sp := by
  unfold find_swing_lows swingIndices
  rw [List.mem_map]
  constructor
  · rintro ⟨i, hi, hsp⟩
    rw [List.mem_filter, List.mem_range'_1] at hi
    exact ⟨i, hi.1, hi.2, hsp⟩
  · rintro ⟨i, h1, h2, h3⟩
    exact ⟨i, List.mem_filter.mpr ⟨List.mem_range'_1.mpr h1, h2⟩, h3⟩

theorem isSwingHighAt_spec {cs : List Candle} {n i : Nat}
    (h : isSwingHighAt cs n i = true) :
    ∀ j, 1 ≤ j → j ≤ n →
      (candAt cs (i - j)).high < (candAt cs i).high ∧
        (candAt cs (i + j)).high < (candAt cs i).high := by
  intro j h1 h2
  unfold isSwingHighAt at h
  rw [List.all_eq_true] at h
  have := h j (List.mem_range'_1.mpr ⟨h1, by omega⟩)
  rw [Bool.and_eq_true, decide_eq_true_eq, decide_eq_true_eq] at this
  exact this

theorem isSwingLowAt_spec {cs : List Candle} {n i : Nat}
    (h : isSwingLowAt cs n i = true) :
    ∀ j, 1 ≤ j → j ≤ n →
      (candAt cs i).low < (candAt cs (i - j)).low ∧
        (candAt cs i).low < (candAt cs (i + j)).low := by
  intro j h1 h2
  unfold isSwingLowAt at h
  rw [List.all_eq_true] at h
  have := h j (List.mem_range'_1.mpr ⟨h1, by omega⟩)
  rw [Bool.and_eq_true, decide_eq_true_eq, decide_eq_true_eq] at this
  exact this

theorem isSwingHighAt_mono {cs : List Candle} {n n' i : Nat} (hle : n' ≤ n)
    (h : isSwingHighAt cs n i = true) : isSwingHighAt cs n' i = true := by
  unfold isSwingHighAt at *
  rw [List.all_eq_true] at *
  intro j hj
  rw [List.mem_range'_1] at hj
  exact h j (List.mem_range'_1.mpr ⟨hj.1, by omega⟩)

theorem isSwingLowAt_mono {cs : List Candle} {n n' i : Nat} (hle : n' ≤ n)
    (h : isSwingLowAt cs n i = true) : isSwingLowAt cs n' i = true := by
  unfold isSwingLowAt at *
  rw [List.all_eq_true] at *
  intro j hj
  rw [List.mem_range'_1] at hj
  exact h j (List.mem_range'_1.mpr ⟨hj.1, by omega⟩)

/-! ## The claims

The concrete evaluations below run the embedded pipeline in the kernel, so
the sealed `Rat` primitives are made semireducible for this section. -/

section ClaimTheorems

attribute [local semireducible] Rat.add Rat.mul Rat.sub Rat.inv Rat.ofScientific

set_option maxRecDepth 100000

/-- C1: the claim says that whenever the SMC analyzer reports a bullish
(resp. bearish) order block, the Order Block strategy opens a BUY (resp.
SELL) at the first subsequent bar whose low (resp. high) reaches the
block's entry target, with stop `bottom×0.995` / `top×1.005` and target
`entry ± risk×rr`.  The code cannot do this: the strategy rebuilds the
blocks from `to_dict` output with a string `type` and compares it against
the `OrderBlockType` enum, so no entry branch ever fires.  Conjunct one
proves the strategy returns a trade-free result on every nonempty series;
conjunct two exhibits a series on which the detector reports exactly one
bullish block whose top edge is first touched at bar 22 with the entry
above the stop — exactly the situation in which the claim promises a BUY. -/
theorem claim_C1 :
    (∀ (klines : List Candle) (sym tf : String) (rr : Rat) (em : String),
      klines ≠ [] →
      ∃ r, test_orderblock_strategy klines sym tf rr em = .ok r ∧
        r.trades = [] ∧ r.total_trades = 0) ∧
    (find_order_blocks obSeries 0.3 = [obSeriesBlock] ∧
      obSeriesBlock.type = .bullish ∧
      obViewsOf obSeries = [⟨.str "bullish", 17, 100, 97, 17⟩] ∧
      obSeriesBlock.candle_index < 22 ∧ 22 < obSeries.length ∧
      (candAt obSeries 22).low ≤ obSeriesBlock.top ∧
      (∀ j, j < 22 → obSeriesBlock.candle_index < j →
        ¬(candAt obSeries j).low ≤ obSeriesBlock.top) ∧
      obSeriesBlock.bottom * 0.995 < obSeriesBlock.top) :=
  ⟨fun klines sym tf rr em hne => ob_strategy_empty klines sym tf rr em hne,
    by decide⟩

/-- C1 witness: the no-trade conclusion instantiated on the very series on
which the claim promises a BUY at bar 22. -/
theorem claim_C1_witness :
    ∃ r, test_orderblock_strategy obSeries "BTCUSDT" "1h" 2 "edge" = .ok r ∧
      r.trades = [] ∧ r.total_trades = 0 :=
  claim_C1.1 obSeries "BTCUSDT" "1h" 2 "edge" (by decide)

/-- C2: the claim says that on a series with at least one CISD zone,
`test_cisd_strategy` returns a `BacktestResult` with retest entries.  The
code reads `cisd.break_candle_index` (and later `cisd.sweep_price`) from a
dataclass whose fields are `candle_index` and `liquidity_swept_level`, so
the very first pattern-loop iteration raises `AttributeError`: on a series
with exactly one reported zone the whole call fails. -/
theorem claim_C2 :
    (cisdZonesOf cisdSeries).length = 1 ∧
    cisdZonesOf cisdSeries = [⟨.bullish, 12, 101, 94, 12, 95⟩] ∧
    test_cisd_strategy cisdSeries "BTCUSDT" "1h" 2 =
      .error "AttributeError: break_candle_index" := by
  decide

/-- C3 counterexample: calls with an empty `target_levels`, an out-of-range
`risk_reward_ratio`, and an unknown `entry_method` all return a normal
`BacktestResult` — the second even simulates a trade — where the claim
demands a fail-fast parameter error with no result produced. -/
theorem claim_C3_counterexample :
    (test_fibonacci_strategy paddedSeries "BTCUSDT" "1h" [] 2).map
      (·.total_trades) = .ok 0 ∧
    (test_fvg_strategy paddedSeries "BTCUSDT" "1h" (-1) 0.5).map
      (·.total_trades) = .ok 1 ∧
    (test_orderblock_strategy paddedSeries "BTCUSDT" "1h" 2
      "definitely-not-a-method").isOk = true := by
  decide

/-- C3 as amended: no backtest-strategy call validates its parameters.  An
entry_method other than "open" and "50%" is treated exactly like the
default "edge" (identical trade lists, for every risk_reward_ratio
including out-of-range ones), and an empty `target_levels` yields a normal
zero-trade `BacktestResult` instead of an error. -/
theorem claim_C3_amended :
    (∀ (klines : List Candle) (sym tf : String) (rr : Rat) (em : String),
      em ≠ "open" → em ≠ "50%" →
      (test_orderblock_strategy klines sym tf rr em).map (·.trades) =
        (test_orderblock_strategy klines sym tf rr "edge").map (·.trades)) ∧
    (∀ (klines : List Candle) (sym tf : String) (rr : Rat),
      ∃ r, test_fibonacci_strategy klines sym tf [] rr = .ok r ∧
        r.total_trades = 0) := by
  constructor
  · intro klines sym tf rr em _ _
    by_cases hk : klines = []
    · subst hk
      rw [ob_strategy_nil, ob_strategy_nil]
    · obtain ⟨r1, h1, ht1, -⟩ := ob_strategy_empty klines sym tf rr em hk
      obtain ⟨r2, h2, ht2, -⟩ := ob_strategy_empty klines sym tf rr "edge" hk
      rw [h1, h2]
      simp only [Except.map]
      rw [ht1, ht2]
  · exact fun klines sym tf rr => fibo_empty_targets klines sym tf rr

/-- C3 amended witness: the unknown-method run matches the edge run on the
concrete padded series with the out-of-range ratio `-1`. -/
theorem claim_C3_amended_witness :
    (test_orderblock_strategy paddedSeries "BTCUSDT" "1h" (-1)
        "definitely-not-a-method").map (·.trades) =
      (test_orderblock_strategy paddedSeries "BTCUSDT" "1h" (-1) "edge").map
        (·.trades) :=
  claim_C3_amended.1 paddedSeries "BTCUSDT" "1h" (-1) "definitely-not-a-method"
    (by decide) (by decide)

/-- C4 counterexample: a timeframe holding 100 candles — fewer than the 500
the claim says gets skipped — is analyzed and appears in the report, so
`analyze_all_timeframes` does not "skip exactly the timeframes with fewer
than 500 candles". -/
theorem claim_C4_counterexample :
    paddedSeries.length = 100 ∧ paddedSeries.length < 500 ∧
    (analyze_all_timeframes "BTCUSDT" [("1h", paddedSeries)] 2).map
      (fun rep => rep.timeframes_analyzed.map (·.timeframe)) = .ok ["1h"] := by
  refine ⟨by decide, by decide, by decide⟩

/-- C4 as amended: each detector answers inputs below its minimum (20 for
full SMC analysis, 15 for FVG, 10 for order blocks, 100 for the
auto-Fibonacci lookback the backtest uses) with an explicit
insufficient-data result — an error object or an empty list — and, being
total functions, never raise; the multi-timeframe scan skips exactly the
timeframes with fewer than 100 (not 500) candles, every successful report
analyzing precisely the timeframes at or above 100 candles. -/
theorem claim_C4_amended :
    (∀ cs : List Candle, cs.length < 20 →
      analyze cs = .insufficientData 20 cs.length) ∧
    (∀ (cs : List Candle) (g : Rat), cs.length < 15 →
      find_fair_value_gaps cs g = []) ∧
    (∀ (cs : List Candle) (m : Rat), cs.length < 10 →
      find_order_blocks cs m = []) ∧
    (∀ klines : List Candle, klines.length < 100 →
      calculate_auto_retracements klines 100 = []) ∧
    (∀ (sym : String) (data : List (String × List Candle)) (rr : Rat)
        (rep : MultiTimeframeReport),
      analyze_all_timeframes sym data rr = .ok rep →
      (rep.timeframes_analyzed.map (·.timeframe)).Perm
        ((data.filter fun p => decide (100 ≤ p.2.length)).map Prod.fst)) := by
  refine ⟨?_, ?_, ?_, ?_, ?_⟩
  · intro cs h
    unfold analyze
    rw [if_pos h]
  · intro cs g h
    unfold find_fair_value_gaps
    rw [if_pos h]
  · intro cs m h
    unfold find_order_blocks
    rw [if_pos h]
  · intro klines h
    unfold calculate_auto_retracements
    rw [if_pos h]
  · intro sym data rr rep h
    unfold analyze_all_timeframes at h
    split at h
    · exact Except.noConfusion h
    · rename_i as_ has
      cases h
      have hlabels := analyzeEach_labels has
      have hperm := (pySort_perm tfSortLe as_).map (·.timeframe)
      rw [hlabels] at hperm
      exact hperm

/-- C4 amended witness: the SMC analyzer's explicit insufficient-data
object on an empty series. -/
theorem claim_C4_amended_witness :
    analyze [] = .insufficientData 20 0 :=
  claim_C4_amended.1 [] (by decide)

/-- C5: in every run of any of the four backtest strategies that returns a
result, the trades occupy pairwise non-overlapping
`[entry_index, exit_index]` ranges (each trade closed with
`entry_index ≤ exit_index`, and earlier trades exiting strictly before
later ones enter); and, at the engine-step level shared by all four, a bar
that starts with an open trade never ends with a different one open — a
new trade is never opened in the iteration that closes its predecessor. -/
theorem claim_C5 :
    (∀ (klines : List Candle) (sym tf : String) (rr : Rat) (em : String)
        (r : BacktestResult),
      test_orderblock_strategy klines sym tf rr em = .ok r →
      TradesDisjoint r.trades ∧ ∀ t ∈ r.trades, TradeSpan t) ∧
    (∀ (klines : List Candle) (sym tf : String) (rr θ : Rat)
        (r : BacktestResult),
      test_fvg_strategy klines sym tf rr θ = .ok r →
      TradesDisjoint r.trades ∧ ∀ t ∈ r.trades, TradeSpan t) ∧
    (∀ (klines : List Candle) (sym tf : String) (tl : List Rat) (rr : Rat)
        (r : BacktestResult),
      test_fibonacci_strategy klines sym tf tl rr = .ok r →
      TradesDisjoint r.trades ∧ ∀ t ∈ r.trades, TradeSpan t) ∧
    (∀ (klines : List Candle) (sym tf : String) (rr : Rat)
        (r : BacktestResult),
      test_cisd_strategy klines sym tf rr = .ok r →
      TradesDisjoint r.trades ∧ ∀ t ∈ r.trades, TradeSpan t) ∧
    (∀ (P : Type) (scan : Nat → Candle → P → Except String (Option (Trade × P)))
        (s s' : EngState P) (i : Nat) (c : Candle) (t t' : Trade),
      s.open_ = some t → engStep scan s i c = .ok s' → s'.open_ = some t' →
      t' = t) := by
  refine ⟨?_, ?_, ?_, ?_, ?_⟩
  · intro klines sym tf rr em r h
    simp only [test_orderblock_strategy] at h
    split at h
    · exact Except.noConfusion h
    · rename_i trades hrun
      split at h
      · cases h
        rw [calculate_metrics_trades]
        exact runStrategy_sound
          (obScanWrap_entryOK klines em rr (obViewsOf klines)
            fun ob hob => obViewsOf_str hob) hrun
      · exact Except.noConfusion h
      · exact Except.noConfusion h
  · intro klines sym tf rr θ r h
    simp only [test_fvg_strategy] at h
    split at h
    · exact Except.noConfusion h
    · rename_i trades hrun
      split at h
      · cases h
        rw [calculate_metrics_trades]
        exact runStrategy_sound (fvgScan_entryOK rr θ) hrun
      · exact Except.noConfusion h
      · exact Except.noConfusion h
  · intro klines sym tf tl rr r h
    simp only [test_fibonacci_strategy] at h
    split at h
    · cases h
      exact ⟨List.Pairwise.nil, fun t ht => absurd ht (List.not_mem_nil t)⟩
    · rename_i fibo rest hretr
      split at h
      · exact Except.noConfusion h
      · rename_i trades hrun
        split at h
        · cases h
          rw [calculate_metrics_trades]
          exact runStrategy_sound (fiboScan_entryOK fibo _ rr) hrun
        · exact Except.noConfusion h
        · exact Except.noConfusion h
  · intro klines sym tf rr r h
    simp only [test_cisd_strategy] at h
    split at h
    · exact Except.noConfusion h
    · rename_i trades hrun
      split at h
      · cases h
        rw [calculate_metrics_trades]
        exact runStrategy_sound (cisdScan_entryOK (cisdZonesOf klines)) hrun
      · exact Except.noConfusion h
      · exact Except.noConfusion h
  · intro P scan s s' i c t t' hopen h h'
    exact engStep_no_reopen hopen h h'

/-- C5 witness: the single-position invariant evaluated on the concrete
FVG run over the padded series (which does open and close a trade). -/
theorem claim_C5_witness :
    TradesDisjoint paddedFvgResult.trades ∧
      ∀ t ∈ paddedFvgResult.trades, TradeSpan t :=
  claim_C5.2.1 paddedSeries "BTCUSDT" "1h" 2 0.5 paddedFvgResult (by decide)

/-- C6: on any bar where the open trade's stop-loss and take-profit
conditions hold simultaneously (BUY: `low ≤ stop ∧ high ≥ tp`; SELL:
`high ≥ stop ∧ low ≤ tp`), the shared per-bar step closes the trade at
exactly the stop-loss price with reason "Stop Loss", never "Take Profit"
— the stop check precedes the target check. -/
theorem claim_C6 :
    ∀ (P : Type) (scan : Nat → Candle → P → Except String (Option (Trade × P)))
      (s : EngState P) (t : Trade) (i : Nat) (c : Candle),
      s.open_ = some t → t.entry_price ≠ 0 →
      ((t.signal_type = .buy → c.low ≤ t.stop_loss → t.take_profit ≤ c.high →
        ∃ tc, engStep scan s i c = .ok ⟨s.closed ++ [tc], none, s.pats⟩ ∧
          tc.exit_price = some t.stop_loss ∧ tc.reason = "Stop Loss" ∧
          tc.reason ≠ "Take Profit") ∧
       (t.signal_type = .sell → t.stop_loss ≤ c.high → c.low ≤ t.take_profit →
        ∃ tc, engStep scan s i c = .ok ⟨s.closed ++ [tc], none, s.pats⟩ ∧
          tc.exit_price = some t.stop_loss ∧ tc.reason = "Stop Loss" ∧
          tc.reason ≠ "Take Profit")) := by
  intro P scan s t i c hopen hne
  obtain ⟨closed, sopen, pats⟩ := s
  cases hopen
  constructor
  · intro hsig hlow hhigh
    obtain ⟨tc, hct⟩ := close_trade_of_ne t c.time t.stop_loss i "Stop Loss" hne
    have hce : checkExit t i c = .ok (some tc) := by
      unfold checkExit
      rw [if_pos ⟨hsig, hlow⟩, hct]
    refine ⟨tc, ?_, ?_, ?_, ?_⟩
    · simp only [engStep, hce]
    · exact (close_trade_ok hct).2.2.2.2.2.2.2.1
    · exact (close_trade_ok hct).2.2.2.2.2.2.2.2
    · rw [(close_trade_ok hct).2.2.2.2.2.2.2.2]
      decide
  · intro hsig hhigh hlow
    obtain ⟨tc, hct⟩ := close_trade_of_ne t c.time t.stop_loss i "Stop Loss" hne
    have hnotbuy : ¬(t.signal_type = .buy ∧ c.low ≤ t.stop_loss) := by
      rintro ⟨hb, -⟩
      rw [hsig] at hb
      exact SignalType.noConfusion hb
    have hce : checkExit t i c = .ok (some tc) := by
      unfold checkExit
      rw [if_neg hnotbuy, if_pos ⟨hsig, hhigh⟩, hct]
    refine ⟨tc, ?_, ?_, ?_, ?_⟩
    · simp only [engStep, hce]
    · exact (close_trade_ok hct).2.2.2.2.2.2.2.1
    · exact (close_trade_ok hct).2.2.2.2.2.2.2.2
    · rw [(close_trade_ok hct).2.2.2.2.2.2.2.2]
      decide

/-- C6 witness: a concrete BUY whose bar touches both bounds closes at the
stop with reason "Stop Loss". -/
theorem claim_C6_witness :
    ∃ tc, engStep (fun _ _ (_ : Unit) =>
        (.ok none : Except String (Option (Trade × Unit))))
      ⟨[], some ⟨0, 100, 0, .buy, 95, 105, none, none, none, none, none, "open"⟩,
        ()⟩ 1 ⟨1, 100, 110, 90, 100, 0⟩ =
      .ok ⟨[] ++ [tc], none, ()⟩ ∧
    tc.exit_price = some 95 ∧ tc.reason = "Stop Loss" ∧
    tc.reason ≠ "Take Profit" :=
  (claim_C6 Unit (fun _ _ _ => .ok none)
    ⟨[], some ⟨0, 100, 0, .buy, 95, 105, none, none, none, none, none, "open"⟩, ()⟩
    ⟨0, 100, 0, .buy, 95, 105, none, none, none, none, none, "open"⟩
    1 ⟨1, 100, 110, 90, 100, 0⟩ rfl (by decide)).1 rfl (by decide) (by decide)

/-- C7: every reported swing high beats the `n` highs on each side
strictly (an equal high disqualifies — the recorded price is the candle's
high and every neighbour is strictly below it), symmetrically for swing
lows; and shrinking the window to any `n' < n` keeps every reported swing
point, so a smaller window can only add swing points. -/
theorem claim_C7 :
    (∀ (cs : List Candle) (n : Nat) (sp : SwingPoint), 1 ≤ n →
      sp ∈ find_swing_highs cs n →
      ∀ j, 1 ≤ j → j ≤ n →
        (candAt cs (sp.index - j)).high < sp.price ∧
          (candAt cs (sp.index + j)).high < sp.price) ∧
    (∀ (cs : List Candle) (n : Nat) (sp : SwingPoint), 1 ≤ n →
      sp ∈ find_swing_lows cs n →
      ∀ j, 1 ≤ j → j ≤ n →
        sp.price < (candAt cs (sp.index - j)).low ∧
          sp.price < (candAt cs (sp.index + j)).low) ∧
    (∀ (cs : List Candle) (n n' : Nat) (sp : SwingPoint), n' < n →
      sp ∈ find_swing_highs cs n → sp ∈ find_swing_highs cs n') ∧
    (∀ (cs : List Candle) (n n' : Nat) (sp : SwingPoint), n' < n →
      sp ∈ find_swing_lows cs n → sp ∈ find_swing_lows cs n') := by
  refine ⟨?_, ?_, ?_, ?_⟩
  · intro cs n sp _ hmem j h1 h2
    obtain ⟨i, -, hsw, hsp⟩ := mem_find_swing_highs.mp hmem
    rw [← hsp]
    exact isSwingHighAt_spec hsw j h1 h2
  · intro cs n sp _ hmem j h1 h2
    obtain ⟨i, -, hsw, hsp⟩ := mem_find_swing_lows.mp hmem
    rw [← hsp]
    exact isSwingLowAt_spec hsw j h1 h2
  · intro cs n n' sp hlt hmem
    obtain ⟨i, hrange, hsw, hsp⟩ := mem_find_swing_highs.mp hmem
    exact mem_find_swing_highs.mpr
      ⟨i, by omega, isSwingHighAt_mono (Nat.le_of_lt hlt) hsw, hsp⟩
  · intro cs n n' sp hlt hmem
    obtain ⟨i, hrange, hsw, hsp⟩ := mem_find_swing_lows.mp hmem
    exact mem_find_swing_lows.mpr
      ⟨i, by omega, isSwingLowAt_mono (Nat.le_of_lt hlt) hsw, hsp⟩

/-- C7 witness: the peak at index 2 found with window 2 is still found
with window 1. -/
theorem claim_C7_witness :
    (⟨2, 5, 2, true⟩ : SwingPoint) ∈ find_swing_highs peakSeries 1 :=
  claim_C7.2.2.1 peakSeries 2 1 ⟨2, 5, 2, true⟩ (by decide) (by decide)

/-- C8: for a backtest result with zero trades the indicator score is 0,
and otherwise it equals the specification's formula
`min(100, 40·(win_rate/100) + 30·min(pf/2, 1) + 15·min(trades/10, 1) +
15·max(0, 1 - drawdown/50))` — given only that the profit factor is
nonnegative, as every produced result's is. -/
theorem claim_C8 :
    ∀ r : BacktestResult, r.profit_factor.nonneg = true →
      calculate_indicator_score r = specIndicatorScore r := by
  intro r h
  by_cases h0 : r.total_trades = 0
  · simp only [calculate_indicator_score, specIndicatorScore, h0, if_true]
  · simp only [calculate_indicator_score, specIndicatorScore, h0, if_false]
    rw [min_comm]
    congr 1
    cases hpf : r.profit_factor with
    | inf =>
      simp only
      ring
    | fin q =>
      unfold PFloat.nonneg at h
      rw [hpf] at h
      have hq : 0 ≤ q := of_decide_eq_true h
      simp only
      by_cases hq2 : 0 < q
      · rw [if_pos hq2]
        ring
      · rw [if_neg hq2]
        have hq0 : q = 0 := le_antisymm (not_lt.mp hq2) hq
        rw [hq0]
        norm_num
        ring

/-- C8 witness: the two score formulas agree on a concrete five-trade
summary. -/
theorem claim_C8_witness :
    calculate_indicator_score scoreSample = specIndicatorScore scoreSample :=
  claim_C8 scoreSample (by decide)

/-- C9: `analyze_all_timeframes` is a pure function of the symbol, the
per-timeframe candle map and the risk/reward parameter — two invocations
on identical inputs return identical reports (scores, respect rates,
rankings and trades included), there being no other inputs (no randomness
and no clock) anywhere in the embedded pipeline. -/
theorem claim_C9 :
    ∀ (sym1 sym2 : String) (d1 d2 : List (String × List Candle))
      (rr1 rr2 : Rat), sym1 = sym2 → d1 = d2 → rr1 = rr2 →
      analyze_all_timeframes sym1 d1 rr1 = analyze_all_timeframes sym2 d2 rr2 := by
  intro sym1 sym2 d1 d2 rr1 rr2 h1 h2 h3
  rw [h1, h2, h3]

/-- C9 witness: two runs on the same concrete one-timeframe input. -/
theorem claim_C9_witness :
    analyze_all_timeframes "BTCUSDT" [("1h", paddedSeries)] 2 =
      analyze_all_timeframes "BTCUSDT" [("1h", paddedSeries)] 2 :=
  claim_C9 "BTCUSDT" "BTCUSDT" [("1h", paddedSeries)] [("1h", paddedSeries)]
    2 2 rfl rfl rfl

/-- C10: whenever `analyze_timeframe` collects at least one indicator
ranking and every collected ranking has score 0, the score-weighted
respect-rate division divides by the zero score sum and the call raises
`ZeroDivisionError` instead of returning a `TimeframeAnalysis`. -/
theorem claim_C10 :
    ∀ (sym tf : String) (klines : List Candle) (rr : Rat),
      timeframeRankings sym tf klines rr ≠ [] →
      (∀ rk ∈ timeframeRankings sym tf klines rr, rk.score = 0) →
      analyze_timeframe sym tf klines rr = .error "ZeroDivisionError" := by
  intro sym tf klines rr hne hz
  have hperm := pySort_perm rankSortLe (timeframeRankings sym tf klines rr)
  have hnemp : (pySort rankSortLe (timeframeRankings sym tf klines rr)).isEmpty
      = false := by
    cases hps : pySort rankSortLe (timeframeRankings sym tf klines rr) with
    | nil => exact absurd ((hps ▸ hperm).symm.eq_nil) hne
    | cons a l => rfl
  have hsum : ((pySort rankSortLe (timeframeRankings sym tf klines rr)).map
      (·.score)).sum = 0 := by
    apply List.sum_eq_zero
    intro x hx
    obtain ⟨rk, hrk, hxe⟩ := List.mem_map.mp hx
    rw [← hxe]
    exact hz rk (hperm.mem_iff.mp hrk)
  simp only [analyze_timeframe, hnemp, Bool.false_eq_true, if_false, hsum,
    pydiv, if_pos]

/-- C10 witness: on 50 flat candles every strategy returns a zero-trade
result, all four scores are 0, and the call raises. -/
theorem claim_C10_witness :
    timeframeRankings "BTCUSDT" "1h" flatSeries 2 ≠ [] ∧
      analyze_timeframe "BTCUSDT" "1h" flatSeries 2 =
        .error "ZeroDivisionError" :=
  ⟨by decide, claim_C10 "BTCUSDT" "1h" flatSeries 2 (by decide) (by decide)⟩

end ClaimTheorems

end SmartTrade
